import Mathlib

/-!
Verification of the RiftRewind Lambda handlers.

The development shallowly embeds the three Python request handlers
(`src/lambda/test-riot-api`, `src/lambda/process-matches`,
`src/lambda/query-rag`) as pure Lean functions over a JSON value model.
Python dictionary/list accesses that can raise become `Except`-valued
functions; each handler is a total function from its request event and
the (explicitly passed) collaborator results to a structured response
together with the list of collaborator side effects it performed.
Python numbers are modelled as exact rationals; `round(x, 2)` is
round-half-to-even at two decimal places.
-/

/-- JSON values as produced by `json.loads`: the data model shared by all
three handlers.  Objects are association lists in insertion order. -/
inductive JVal where
  | null : JVal
  | bool (b : Bool) : JVal
  | num (q : ℚ) : JVal
  | str (s : String) : JVal
  | arr (xs : List JVal) : JVal
  | obj (kvs : List (String × JVal)) : JVal
deriving Repr

mutual

/-- Structural (Boolean) equality of JSON values. -/
def jbeq : JVal → JVal → Bool
  | .null, .null => true
  | .bool a, .bool b => a == b
  | .num a, .num b => a == b
  | .str a, .str b => a == b
  | .arr xs, .arr ys => jbeqArr xs ys
  | .obj xs, .obj ys => jbeqObj xs ys
  | _, _ => false

/-- Structural equality of JSON arrays. -/
def jbeqArr : List JVal → List JVal → Bool
  | [], [] => true
  | x :: xs, y :: ys => jbeq x y && jbeqArr xs ys
  | _, _ => false

/-- Structural equality of JSON objects. -/
def jbeqObj : List (String × JVal) → List (String × JVal) → Bool
  | [], [] => true
  | (k, v) :: xs, (l, w) :: ys => k == l && jbeq v w && jbeqObj xs ys
  | _, _ => false

end

mutual

theorem jbeq_iff : ∀ a b : JVal, jbeq a b = true ↔ a = b
  | .null, .null => by simp [jbeq]
  | .null, .bool _ => by simp [jbeq]
  | .null, .num _ => by simp [jbeq]
  | .null, .str _ => by simp [jbeq]
  | .null, .arr _ => by simp [jbeq]
  | .null, .obj _ => by simp [jbeq]
  | .bool _, .null => by simp [jbeq]
  | .bool _, .bool _ => by simp [jbeq]
  | .bool _, .num _ => by simp [jbeq]
  | .bool _, .str _ => by simp [jbeq]
  | .bool _, .arr _ => by simp [jbeq]
  | .bool _, .obj _ => by simp [jbeq]
  | .num _, .null => by simp [jbeq]
  | .num _, .bool _ => by simp [jbeq]
  | .num _, .num _ => by simp [jbeq]
  | .num _, .str _ => by simp [jbeq]
  | .num _, .arr _ => by simp [jbeq]
  | .num _, .obj _ => by simp [jbeq]
  | .str _, .null => by simp [jbeq]
  | .str _, .bool _ => by simp [jbeq]
  | .str _, .num _ => by simp [jbeq]
  | .str _, .str _ => by simp [jbeq]
  | .str _, .arr _ => by simp [jbeq]
  | .str _, .obj _ => by simp [jbeq]
  | .arr _, .null => by simp [jbeq]
  | .arr _, .bool _ => by simp [jbeq]
  | .arr _, .num _ => by simp [jbeq]
  | .arr _, .str _ => by simp [jbeq]
  | .arr xs, .arr ys => by simpa [jbeq] using jbeqArr_iff xs ys
  | .arr _, .obj _ => by simp [jbeq]
  | .obj _, .null => by simp [jbeq]
  | .obj _, .bool _ => by simp [jbeq]
  | .obj _, .num _ => by simp [jbeq]
  | .obj _, .str _ => by simp [jbeq]
  | .obj _, .arr _ => by simp [jbeq]
  | .obj xs, .obj ys => by simpa [jbeq] using jbeqObj_iff xs ys

theorem jbeqArr_iff : ∀ xs ys : List JVal, jbeqArr xs ys = true ↔ xs = ys
  | [], [] => by simp [jbeqArr]
  | [], _ :: _ => by simp [jbeqArr]
  | _ :: _, [] => by simp [jbeqArr]
  | x :: xs, y :: ys => by
      simp [jbeqArr, Bool.and_eq_true, jbeq_iff x y, jbeqArr_iff xs ys]

theorem jbeqObj_iff : ∀ xs ys : List (String × JVal), jbeqObj xs ys = true ↔ xs = ys
  | [], [] => by simp [jbeqObj]
  | [], _ :: _ => by simp [jbeqObj]
  | _ :: _, [] => by simp [jbeqObj]
  | (k, v) :: xs, (l, w) :: ys => by
      simp [jbeqObj, Bool.and_eq_true, jbeq_iff v w, jbeqObj_iff xs ys, Prod.ext_iff, and_assoc]

end

instance : DecidableEq JVal := fun a b => decidable_of_iff (jbeq a b = true) (jbeq_iff a b)

/-! ## Kernel-computable rational arithmetic

Mathlib's `Rat` operations normalize through `Nat.gcd`, which is defined by
well-founded recursion and therefore does not reduce inside the kernel.  The
handlers below use `ratMk`, a normalization built on a fuelled Euclid, so
that concrete handler runs can be evaluated by `decide`.  `ratMk_eq` shows
it agrees with ordinary rational division. -/

/-- Euclid's algorithm with explicit fuel (structural recursion). -/
def gcdF : Nat → Nat → Nat → Nat
  | 0, _, n => n
  | _ + 1, 0, n => n
  | f + 1, m + 1, n => gcdF f (n % (m + 1)) (m + 1)

theorem gcdF_eq : ∀ (f m n : Nat), m ≤ f → gcdF f m n = Nat.gcd m n := by
  intro f
  induction f with
  | zero =>
      intro m n h
      have hm : m = 0 := Nat.le_zero.mp h
      subst hm
      simp [gcdF, Nat.gcd]
  | succ f ih =>
      intro m n h
      cases m with
      | zero => simp [gcdF, Nat.gcd]
      | succ m =>
          rw [gcdF, ih _ _ (Nat.le_of_lt_succ (Nat.lt_of_lt_of_le (Nat.mod_lt n (Nat.succ_pos m)) h)),
            Nat.gcd_succ]

/-- Normalize the fraction `s / dn` (with `dn ≠ 0`) to a rational value,
using only kernel-reducible operations. -/
def ratNorm (s : ℤ) (dn : Nat) (hdn : dn ≠ 0) : ℚ :=
  Rat.mk' (s / (gcdF s.natAbs s.natAbs dn : ℤ)) (dn / gcdF s.natAbs s.natAbs dn)
    (by
      rw [gcdF_eq _ _ _ (Nat.le_refl _)]
      have hdnpos : 0 < dn := Nat.pos_of_ne_zero hdn
      have hgpos : 0 < Nat.gcd s.natAbs dn := Nat.gcd_pos_of_pos_right _ hdnpos
      exact Nat.ne_of_gt (Nat.div_pos (Nat.le_of_dvd hdnpos (Nat.gcd_dvd_right _ _)) hgpos))
    (by
      rw [gcdF_eq _ _ _ (Nat.le_refl _)]
      have hdnpos : 0 < dn := Nat.pos_of_ne_zero hdn
      have hgpos : 0 < Nat.gcd s.natAbs dn := Nat.gcd_pos_of_pos_right _ hdnpos
      have hdvd : (Nat.gcd s.natAbs dn : ℤ) ∣ s :=
        Int.dvd_natAbs.mp (Int.ofNat_dvd.mpr (Nat.gcd_dvd_left _ _))
      rw [Int.natAbs_ediv s _ hdvd]
      simp only [Int.natAbs_ofNat]
      exact Nat.coprime_div_gcd_div_gcd hgpos)

theorem ratNorm_eq (s : ℤ) (dn : Nat) (h : dn ≠ 0) :
    ratNorm s dn h = (s : ℚ) / (dn : ℚ) := by
  rw [ratNorm, Rat.mk'_eq_divInt, Rat.divInt_eq_div]
  have hgF : gcdF s.natAbs s.natAbs dn = Nat.gcd s.natAbs dn := gcdF_eq _ _ _ (Nat.le_refl _)
  rw [hgF]
  have hg0 : Nat.gcd s.natAbs dn ≠ 0 :=
    Nat.ne_of_gt (Nat.gcd_pos_of_pos_right _ (Nat.pos_of_ne_zero h))
  obtain ⟨t, ht⟩ : (Nat.gcd s.natAbs dn : ℤ) ∣ s :=
    Int.dvd_natAbs.mp (Int.ofNat_dvd.mpr (Nat.gcd_dvd_left _ _))
  obtain ⟨e, he⟩ : Nat.gcd s.natAbs dn ∣ dn := Nat.gcd_dvd_right _ _
  generalize hG : Nat.gcd s.natAbs dn = G at ht he hg0
  rw [ht, he]
  rw [Int.mul_ediv_cancel_left _ (by exact_mod_cast hg0)]
  rw [Nat.mul_div_cancel_left _ (Nat.pos_of_ne_zero hg0)]
  push_cast
  rw [mul_div_mul_left _ _ (by exact_mod_cast hg0)]

/-- Normalized rational `n / d` computed by kernel-reducible operations;
`0` when `d = 0` (the handlers only apply it to nonzero denominators). -/
def ratMk (n d : ℤ) : ℚ :=
  if hd : d = 0 then 0
  else if _hneg : d < 0 then
    ratNorm (-n) d.natAbs (fun hc => hd (Int.natAbs_eq_zero.mp hc))
  else
    ratNorm n d.natAbs (fun hc => hd (Int.natAbs_eq_zero.mp hc))

theorem ratMk_eq (n d : ℤ) (hd : d ≠ 0) : ratMk n d = (n : ℚ) / (d : ℚ) := by
  rw [ratMk, dif_neg hd]
  by_cases hneg : d < 0
  · rw [dif_pos hneg, ratNorm_eq]
    have habs : ((d.natAbs : ℕ) : ℚ) = ((-d : ℤ) : ℚ) := by
      rw [← Int.cast_natCast, Int.ofNat_natAbs_of_nonpos (le_of_lt hneg)]
    rw [habs]
    push_cast
    exact neg_div_neg_eq _ _
  · rw [dif_neg hneg, ratNorm_eq]
    have habs : ((d.natAbs : ℕ) : ℚ) = ((d : ℤ) : ℚ) := by
      rw [← Int.cast_natCast, Int.natAbs_of_nonneg (le_of_not_lt hneg)]
    rw [habs]

example : ratMk 350 100 = 7 / 2 := by rw [ratMk_eq _ _ (by norm_num)]; norm_num
example : ratMk 350 100 = Rat.mk' 7 2 (by decide) (by decide) := by decide
example : ratMk (-3) (-6) = Rat.mk' 1 2 (by decide) (by decide) := by decide

/-! ## Python operation semantics on JSON values -/

/-- First-match lookup in a JSON object's association list (keys produced by
`json.loads` are unique, so first match is the dictionary lookup). -/
def jlookup : List (String × JVal) → String → Option JVal
  | [], _ => none
  | (k, v) :: rest, key => if k = key then some v else jlookup rest key

/-- Python `d[k]`: `KeyError` when the key is absent, `TypeError` when the
value is not a dictionary. -/
def getE : JVal → String → Except String JVal
  | .obj kvs, k =>
      match jlookup kvs k with
      | some v => .ok v
      | none => .error ("KeyError: " ++ k)
  | _, k => .error ("TypeError: value is not subscriptable by key " ++ k)

/-- Python `v[i]` at a non-negative literal index: sequences only. -/
def getIdxE : JVal → Nat → Except String JVal
  | .arr xs, i =>
      match xs.get? i with
      | some v => .ok v
      | none => .error "IndexError: list index out of range"
  | .str s, i =>
      match s.data.get? i with
      | some c => .ok (.str (String.singleton c))
      | none => .error "IndexError: string index out of range"
  | _, _ => .error "TypeError: value is not indexable"

/-- Python `d.get(k, default)`: `AttributeError` when the value is not a
dictionary. -/
def pyGet (v : JVal) (k : String) (dflt : JVal) : Except String JVal :=
  match v with
  | .obj kvs => .ok ((jlookup kvs k).getD dflt)
  | _ => .error "AttributeError: value has no attribute get"

/-- Whitespace stripped by `str.strip()` (the ASCII subset that occurs in
request fields). -/
def isSpaceChar (c : Char) : Bool := c == ' ' || c == '\t' || c == '\n' || c == '\r'

/-- Python `s.strip()`. -/
def pyStrip (s : String) : String :=
  ⟨((s.data.dropWhile isSpaceChar).reverse.dropWhile isSpaceChar).reverse⟩

/-- Python `s.strip()` on a JSON value: strings only. -/
def pyStripE : JVal → Except String String
  | .str s => .ok (pyStrip s)
  | _ => .error "AttributeError: value has no attribute strip"

/-- `body.get(k, default).strip()`, the request-field access pattern shared
by all three handlers. -/
def getStrField (body : JVal) (k dflt : String) : Except String String :=
  match pyGet body k (.str dflt) with
  | .error e => .error e
  | .ok v => pyStripE v

/-- Python falsiness (`not v`) of a JSON value. -/
def pyFalsy : JVal → Bool
  | .null => true
  | .bool b => !b
  | .num q => q == 0
  | .str s => s == ""
  | .arr xs => xs.isEmpty
  | .obj kvs => kvs.isEmpty

/-- Python iteration `for x in v`: lists yield elements, strings yield
characters, dictionaries yield their keys; other values raise. -/
def toIterE : JVal → Except String (List JVal)
  | .arr xs => .ok xs
  | .str s => .ok (s.data.map fun c => .str (String.singleton c))
  | .obj kvs => .ok (kvs.map fun kv => .str kv.1)
  | _ => .error "TypeError: value is not iterable"

/-- Python slicing `v[:20]` (evaluated inside a logging statement of the
ingestion handler) succeeds exactly on sequence values. -/
def pySliceable : JVal → Bool
  | .str _ => true
  | .arr _ => true
  | _ => false

/-- Python `str()` of a JSON value.  Scalars are rendered faithfully; the
handlers only ever stringify scalars (match ids, counters), so container
rendering is abbreviated. -/
def pyStr : JVal → String
  | .null => "None"
  | .bool b => if b then "True" else "False"
  | .num q => if q.den = 1 then toString q.num else toString q.num ++ "/" ++ toString q.den
  | .str s => s
  | .arr _ => "[...]"
  | .obj _ => "\x7b...\x7d"

/-- A JSON value seen as a Python number (`bool` is an `int` subtype). -/
def toNumQ : JVal → Option ℚ
  | .num q => some q
  | .bool b => some (if b then 1 else 0)
  | _ => none

/-- Addition of rationals through `ratMk` (kernel-reducible). -/
def qAdd (a b : ℚ) : ℚ :=
  ratMk (a.num * (b.den : ℤ) + b.num * (a.den : ℤ)) ((a.den : ℤ) * (b.den : ℤ))

/-- Division of rationals through `ratMk` (kernel-reducible). -/
def qDiv (a b : ℚ) : ℚ :=
  ratMk (a.num * (b.den : ℤ)) ((a.den : ℤ) * b.num)

theorem qAdd_eq (a b : ℚ) : qAdd a b = a + b := by
  have ha : ((a.den : ℤ) : ℚ) ≠ 0 := by
    exact_mod_cast (Int.natCast_ne_zero.mpr a.den_nz)
  have hb : ((b.den : ℤ) : ℚ) ≠ 0 := by
    exact_mod_cast (Int.natCast_ne_zero.mpr b.den_nz)
  rw [qAdd, ratMk_eq _ _ (mul_ne_zero (Int.natCast_ne_zero.mpr a.den_nz)
    (Int.natCast_ne_zero.mpr b.den_nz))]
  conv_rhs => rw [← Rat.num_div_den a, ← Rat.num_div_den b]
  push_cast at ha hb ⊢
  rw [div_add_div _ _ ha hb]
  ring_nf

theorem qDiv_eq (a b : ℚ) (hb : b ≠ 0) : qDiv a b = a / b := by
  have hbn : b.num ≠ 0 := Rat.num_ne_zero.mpr hb
  have h1 : ((a.den : ℚ)) ≠ 0 := Nat.cast_ne_zero.mpr a.den_nz
  have h2 : ((b.den : ℚ)) ≠ 0 := Nat.cast_ne_zero.mpr b.den_nz
  have h3 : ((b.num : ℚ)) ≠ 0 := Int.cast_ne_zero.mpr hbn
  rw [qDiv, ratMk_eq _ _ (mul_ne_zero (Int.natCast_ne_zero.mpr a.den_nz) hbn)]
  conv_rhs => rw [← Rat.num_div_den a, ← Rat.num_div_den b]
  push_cast
  field_simp

/-- Round-half-to-even of the fraction `n / d` (`d > 0`), by integer
operations only. -/
def rheDiv (n d : ℤ) : ℤ :=
  let fl := Int.fdiv n d
  let r2 := 2 * (n - fl * d)
  if r2 < d then fl else if d < r2 then fl + 1 else if fl % 2 = 0 then fl else fl + 1

/-- Python `round(x, 2)`: round-half-to-even at two decimal places, on the
exact rational value. -/
def round2 (q : ℚ) : ℚ := ratMk (rheDiv (100 * q.num) (q.den : ℤ)) 100

/-- Python `a + b` (numbers add, strings and lists concatenate). -/
def pyAddE (a b : JVal) : Except String JVal :=
  match toNumQ a, toNumQ b with
  | some qa, some qb => .ok (.num (qAdd qa qb))
  | _, _ =>
      match a, b with
      | .str s, .str t => .ok (.str (s ++ t))
      | .arr xs, .arr ys => .ok (.arr (xs ++ ys))
      | _, _ => .error "TypeError: unsupported operand types for +"

/-- Python `max(a, b)` for the value kinds that occur here. -/
def pyMaxE (a b : JVal) : Except String JVal :=
  match toNumQ a, toNumQ b with
  | some qa, some qb => .ok (.num (max qa qb))
  | _, _ =>
      match a, b with
      | .str s, .str t => .ok (.str (if s < t then t else s))
      | _, _ => .error "TypeError: unorderable operand types for max"

/-- Python `a / b` (true division). -/
def pyDivE (a b : JVal) : Except String JVal :=
  match toNumQ a, toNumQ b with
  | some qa, some qb =>
      if qb = 0 then .error "ZeroDivisionError: division by zero"
      else .ok (.num (qDiv qa qb))
  | _, _ => .error "TypeError: unsupported operand types for division"

/-- Python `round(v, 2)` on a JSON value. -/
def pyRoundE (v : JVal) : Except String JVal :=
  match toNumQ v with
  | some q => .ok (.num (round2 q))
  | none => .error "TypeError: round expects a number"

/-- Python `p in s` (substring containment). -/
def strContains (s pat : String) : Bool := 1 < (s.splitOn pat).length

/-- Python `c in s` for a single character (the Riot-ID format check). -/
def pyContainsChar (s : String) (c : Char) : Bool := s.data.any (fun x => x == c)

/-- Python `s.startswith(p)`. -/
def pyStartsWith (s p : String) : Bool := p.data.isPrefixOf s.data

/-- Python `s.endswith(p)`. -/
def pyEndsWith (s p : String) : Bool := p.data.isSuffixOf s.data

/-! ## Shared handler scaffolding -/

deriving instance DecidableEq for Except

/-- The outcome of `json.loads(event['body'])`: either a parsed JSON value
or a parse failure (which the handlers catch only at top level). -/
inductive EventBody where
  | malformed : EventBody
  | parsed (body : JVal) : EventBody
deriving DecidableEq

/-- One upstream HTTP response: its status, raw payload text, and the
result of `json.loads` on the payload. -/
structure HttpResp where
  status : Nat
  raw : String
  body : Except String JVal
deriving DecidableEq

/-- An object stored in the S3 bucket: a JSON document or the aggregated
CSV table (kept structured as its header and rows). -/
inductive Content where
  | json (v : JVal) : Content
  | csv (header : List String) (rows : List (List (String × JVal))) : Content
deriving DecidableEq

/-- A collaborator side effect performed by a handler, in execution order. -/
inductive Effect where
  | ssmGet : Effect
  | httpGet (tag : String) : Effect
  | s3List (keyPrefix : String) : Effect
  | s3Get (key : String) : Effect
  | put (key : String) (c : Content) : Effect
  | bedrock : Effect
deriving DecidableEq

/-- A handler response: status code plus JSON body. -/
structure Response where
  statusCode : Nat
  body : JVal
deriving DecidableEq

/-- `{'error': msg}` response body. -/
def errBody (msg : String) : JVal := .obj [("error", .str msg)]

/-- Field projection on a JSON object (for stating properties of bodies). -/
def jfield (v : JVal) (k : String) : Option JVal :=
  match v with
  | .obj kvs => jlookup kvs k
  | _ => none

/-- Lookup of an S3 object by key. -/
def lookupStorage : List (String × Content) → String → Option Content
  | [], _ => none
  | (k, c) :: rest, key => if k = key then some c else lookupStorage rest key

/-- The participant scan shared by both extractors: iterate `participants`,
return the first entry whose `'puuid'` equals the queried id; accessing
`'puuid'` on a malformed entry raises. -/
def findParticipantE : List JVal → JVal → Except String (Option JVal)
  | [], _ => .ok none
  | p :: rest, target =>
      match getE p "puuid" with
      | .error e => .error e
      | .ok pv => if pv = target then .ok (some p) else findParticipantE rest target

/-! ## Ingestion handler (`src/lambda/test-riot-api/lambda_function.py`) -/

namespace RiotApi

/-- `get_account_routing`'s lookup table (source lines 316-333). -/
def account_routing_map : List (String × String) :=
  [("na1", "americas"), ("br1", "americas"), ("la1", "americas"), ("la2", "americas"),
   ("oc1", "americas"),
   ("euw1", "europe"), ("eun1", "europe"), ("tr1", "europe"), ("ru", "europe"),
   ("kr", "asia"), ("jp1", "asia"),
   ("ph2", "sea"), ("sg2", "sea"), ("th2", "sea"), ("tw2", "sea"), ("vn2", "sea")]

/-- Map platform region to routing value for the Account API. -/
def get_account_routing (region : String) : String :=
  (account_routing_map.lookup region).getD "americas"

/-- `get_match_routing`'s lookup table (source lines 338-355). -/
def match_routing_map : List (String × String) :=
  [("na1", "americas"), ("br1", "americas"), ("la1", "americas"), ("la2", "americas"),
   ("oc1", "sea"),
   ("euw1", "europe"), ("eun1", "europe"), ("tr1", "europe"), ("ru", "europe"),
   ("kr", "asia"), ("jp1", "asia"),
   ("ph2", "sea"), ("sg2", "sea"), ("th2", "sea"), ("tw2", "sea"), ("vn2", "sea")]

/-- Map platform region to routing value for the Match API. -/
def get_match_routing (region : String) : String :=
  (match_routing_map.lookup region).getD "americas"

/-- `extract_player_stats` with its exceptions made explicit (the source
wraps the body in `try`/`except`; see `extract_player_stats` below). -/
def extractPlayerStatsE (match_data : JVal) (puuid : JVal) : Except String (Option JVal) := do
  let info ← getE match_data "info"
  let participants ← getE info "participants"
  let partsList ← toIterE participants
  let found ← findParticipantE partsList puuid
  match found with
  | none => return none
  | some player_data =>
      if pyFalsy player_data then return none else do
      let metadata ← getE match_data "metadata"
      let matchId ← getE metadata "matchId"
      let gameCreation ← getE info "gameCreation"
      let gameDuration ← getE info "gameDuration"
      let gameMode ← getE info "gameMode"
      let queueId ← getE info "queueId"
      let championName ← getE player_data "championName"
      let championId ← getE player_data "championId"
      let teamPosition ← getE player_data "teamPosition"
      let individualPosition ← getE player_data "individualPosition"
      let kills ← getE player_data "kills"
      let deaths ← getE player_data "deaths"
      let assists ← getE player_data "assists"
      let totalMinionsKilled ← getE player_data "totalMinionsKilled"
      let neutralMinionsKilled ← getE player_data "neutralMinionsKilled"
      let goldEarned ← getE player_data "goldEarned"
      let totalDamageDealtToChampions ← getE player_data "totalDamageDealtToChampions"
      let totalDamageTaken ← getE player_data "totalDamageTaken"
      let visionScore ← getE player_data "visionScore"
      let win ← getE player_data "win"
      let item0 ← getE player_data "item0"
      let item1 ← getE player_data "item1"
      let item2 ← getE player_data "item2"
      let item3 ← getE player_data "item3"
      let item4 ← getE player_data "item4"
      let item5 ← getE player_data "item5"
      let item6 ← getE player_data "item6"
      let summoner1Id ← getE player_data "summoner1Id"
      let summoner2Id ← getE player_data "summoner2Id"
      let perks ← getE player_data "perks"
      let styles ← getE perks "styles"
      let style0 ← getIdxE styles 0
      let primaryStyle ← getE style0 "style"
      let style1 ← getIdxE styles 1
      let subStyle ← getE style1 "style"
      let selections ← getE style0 "selections"
      let sel0 ← getIdxE selections 0
      let primaryPerk ← getE sel0 "perk"
      return some (.obj [
        ("matchId", matchId), ("gameCreation", gameCreation), ("gameDuration", gameDuration),
        ("gameMode", gameMode), ("queueId", queueId), ("championName", championName),
        ("championId", championId), ("teamPosition", teamPosition),
        ("individualPosition", individualPosition), ("kills", kills), ("deaths", deaths),
        ("assists", assists), ("totalMinionsKilled", totalMinionsKilled),
        ("neutralMinionsKilled", neutralMinionsKilled), ("goldEarned", goldEarned),
        ("totalDamageDealtToChampions", totalDamageDealtToChampions),
        ("totalDamageTaken", totalDamageTaken), ("visionScore", visionScore), ("win", win),
        ("items", .arr [item0, item1, item2, item3, item4, item5, item6]),
        ("summoner1Id", summoner1Id), ("summoner2Id", summoner2Id),
        ("perks", .obj [("primaryStyle", primaryStyle), ("subStyle", subStyle),
          ("primaryPerk", primaryPerk)])])

/-- `extract_player_stats` (source lines 254-312): any exception during
extraction is caught and turned into `None`. -/
def extract_player_stats (match_data : JVal) (puuid : JVal) : Option JVal :=
  match extractPlayerStatsE match_data puuid with
  | .ok o => o
  | .error _ => none

/-- The per-match summary entry appended to `processed_matches`
(source lines 208-222). -/
def mkEntry (match_id : JVal) (match_key : String) (stats : JVal) : Except String JVal := do
  let champion ← pyGet stats "championName" .null
  let championId ← pyGet stats "championId" .null
  let role ← pyGet stats "teamPosition" (.str "UNKNOWN")
  let kills ← pyGet stats "kills" (.num 0)
  let deaths ← pyGet stats "deaths" (.num 0)
  let assists ← pyGet stats "assists" (.num 0)
  let win ← pyGet stats "win" .null
  let gameMode ← pyGet stats "gameMode" .null
  let gameDuration ← pyGet stats "gameDuration" .null
  let totalMinionsKilled ← pyGet stats "totalMinionsKilled" (.num 0)
  let neutralMinionsKilled ← pyGet stats "neutralMinionsKilled" (.num 0)
  let cs ← pyAddE totalMinionsKilled neutralMinionsKilled
  return .obj [("matchId", match_id), ("champion", champion), ("championId", championId),
    ("role", role), ("kills", kills), ("deaths", deaths), ("assists", assists),
    ("kda", .str (pyStr kills ++ "/" ++ pyStr deaths ++ "/" ++ pyStr assists)),
    ("win", win), ("gameMode", gameMode), ("gameDuration", gameDuration),
    ("cs", cs), ("s3Key", .str match_key)]

/-- The upstream collaborator results for one ingestion request: the
Parameter Store lookup, the three fixed API calls, and the per-match
fetches (keyed by the stringified match id in the request URL). -/
structure RiotUpstream where
  apiKey : Except String String
  account : HttpResp
  summoner : HttpResp
  matchList : HttpResp
  matchFetch : String → HttpResp

/-- The per-match loop (source lines 180-223): fetch the full record, skip
the match on a non-200 status, persist the raw record, then extract and
summarize; a summary-construction exception aborts the whole request. -/
def processLoop (up : RiotUpstream) (pid : String) (target : JVal) :
    List JVal → List Effect × Except String (List JVal)
  | [] => ([], .ok [])
  | match_id :: rest =>
      let mid := pyStr match_id
      let r := up.matchFetch mid
      let fetchEff : List Effect := [.httpGet ("match " ++ mid)]
      if r.status ≠ 200 then
        let next := processLoop up pid target rest
        (fetchEff ++ next.1, next.2)
      else
        match r.body with
        | .error e => (fetchEff, .error e)
        | .ok match_data =>
            let match_key := "users/" ++ pid ++ "/matches/" ++ mid ++ ".json"
            let writeEff := fetchEff ++ [.put match_key (.json match_data)]
            match extract_player_stats match_data target with
            | none =>
                let next := processLoop up pid target rest
                (writeEff ++ next.1, next.2)
            | some player_stats =>
                match mkEntry match_id match_key player_stats with
                | .error e => (writeEff, .error e)
                | .ok entry =>
                    let next := processLoop up pid target rest
                    (writeEff ++ next.1, next.2.map fun l => entry :: l)

/-- The body of `lambda_handler` inside its top-level `try`
(source lines 14-243): `.error` is an uncaught Python exception. -/
def riotInner (ev : EventBody) (up : RiotUpstream) (now : String) :
    List Effect × Except String Response :=
  match ev with
  | .malformed => ([], .error "json.loads: invalid request body")
  | .parsed body =>
    match getStrField body "summonerName" "" with
    | .error e => ([], .error e)
    | .ok summoner_name =>
    match pyGet body "region" (.str "oc1") with
    | .error e => ([], .error e)
    | .ok region =>
    if summoner_name = "" then
      ([], .ok ⟨400, errBody "Summoner name is required"⟩)
    else if pyContainsChar summoner_name '#' = false then
      ([], .ok ⟨400, errBody "Please use Riot ID format: GameName#TAG (e.g., Iceraze#OC)"⟩)
    else
      match up.apiKey with
      | .error _ => ([.ssmGet], .ok ⟨500, errBody "Failed to retrieve API key"⟩)
      | .ok _ =>
        let e1 : List Effect := [.ssmGet, .httpGet "account"]
        let ar := up.account
        if ar.status = 404 then
          (e1, .ok ⟨404, errBody "Riot ID not found. Check spelling and region."⟩)
        else if ar.status = 403 then
          (e1, .ok ⟨403, .obj [("error", .str "API key is invalid or expired"),
            ("hint", .str "Regenerate your Riot API key at https://developer.riotgames.com/")]⟩)
        else if ar.status ≠ 200 then
          (e1, .ok ⟨ar.status, .obj [
            ("error", .str ("Failed to fetch account: " ++ toString ar.status)),
            ("detail", .str ar.raw)]⟩)
        else
        match ar.body with
        | .error e => (e1, .error e)
        | .ok account_data =>
        match getE account_data "puuid" with
        | .error e => (e1, .error e)
        | .ok puuid =>
        if pySliceable puuid = false then (e1, .error "TypeError: puuid is not sliceable")
        else
        let e2 := e1 ++ [.httpGet "summoner"]
        let sr := up.summoner
        if sr.status ≠ 200 then
          (e2, .ok ⟨500, .obj [("error", .str "Failed to fetch summoner data"),
            ("detail", .str sr.raw)]⟩)
        else
        match sr.body with
        | .error e => (e2, .error e)
        | .ok summoner_data =>
        match getE account_data "gameName" with
        | .error e => (e2, .error e)
        | .ok gameName =>
        match getE account_data "tagLine" with
        | .error e => (e2, .error e)
        | .ok tagLine =>
        let full_summoner_name := pyStr gameName ++ "#" ++ pyStr tagLine
        match getE summoner_data "summonerLevel" with
        | .error e => (e2, .error e)
        | .ok summonerLevel =>
        let profile_data : JVal := .obj [("puuid", puuid), ("gameName", gameName),
          ("tagLine", tagLine), ("summonerLevel", summonerLevel), ("region", region),
          ("lastUpdated", .str now)]
        let profile_key := "users/" ++ pyStr puuid ++ "/profile.json"
        let e3 := e2 ++ [.put profile_key (.json profile_data)]
        let e4 := e3 ++ [.httpGet "matchlist"]
        let mlr := up.matchList
        if mlr.status ≠ 200 then
          (e4, .ok ⟨mlr.status, errBody ("Failed to fetch match list: " ++ toString mlr.status)⟩)
        else
        match mlr.body with
        | .error e => (e4, .error e)
        | .ok match_ids =>
        if pyFalsy match_ids then
          (e4, .ok ⟨404, errBody "No matches found for this summoner"⟩)
        else
        match toIterE match_ids with
        | .error e => (e4, .error e)
        | .ok mids =>
        let lr := processLoop up (pyStr puuid) puuid mids
        match lr.2 with
        | .error e => (e4 ++ lr.1, .error e)
        | .ok processed_matches =>
            (e4 ++ lr.1, .ok ⟨200, .obj [
              ("summoner", .obj [("name", .str full_summoner_name), ("level", summonerLevel),
                ("puuid", puuid), ("profileS3Key", .str profile_key)]),
              ("matchesProcessed", .num (processed_matches.length : ℚ)),
              ("matches", .arr processed_matches),
              ("region", region)]⟩)

/-- `lambda_handler` (source lines 8-252): the top-level `try`/`except`
converts any uncaught exception into a 500 response. -/
def lambda_handler (ev : EventBody) (up : RiotUpstream) (now : String) :
    List Effect × Response :=
  let r := riotInner ev up now
  (r.1, match r.2 with
    | .ok resp => resp
    | .error e => ⟨500, .obj [("error", .str "Internal server error"), ("detail", .str e)]⟩)

end RiotApi

/-! ## Aggregation handler (`src/lambda/process-matches/lambda_function.py`) -/

namespace ProcessMatches

/-- The inline per-match extraction (source lines 62-98): locate the
player's participant entry, then build the flat statistics record;
`.ok none` means the player was not found and the match is skipped,
`.error` is an uncaught exception (there is no per-match `try` in this
handler). -/
def extractStats (match_json : JVal) (puuid : String) :
    Except String (Option (List (String × JVal))) := do
  let info ← getE match_json "info"
  let participants ← getE info "participants"
  let partsList ← toIterE participants
  let found ← findParticipantE partsList (.str puuid)
  match found with
  | none => return none
  | some player_stats =>
      if pyFalsy player_stats then return none else do
      let metadata ← getE match_json "metadata"
      let matchId ← getE metadata "matchId"
      let gameCreation ← getE info "gameCreation"
      let gameDuration ← getE info "gameDuration"
      let gameMode ← getE info "gameMode"
      let queueId ← getE info "queueId"
      let championName ← getE player_stats "championName"
      let championId ← getE player_stats "championId"
      let position ← pyGet player_stats "teamPosition" (.str "UNKNOWN")
      let kills ← getE player_stats "kills"
      let deaths ← getE player_stats "deaths"
      let assists ← getE player_stats "assists"
      let kdaSum ← pyAddE kills assists
      let kdaDen ← pyMaxE deaths (.num 1)
      let kdaQuot ← pyDivE kdaSum kdaDen
      let kdaRounded ← pyRoundE kdaQuot
      let totalMinionsKilled ← getE player_stats "totalMinionsKilled"
      let neutralMinionsKilled ← getE player_stats "neutralMinionsKilled"
      let cs ← pyAddE totalMinionsKilled neutralMinionsKilled
      let goldEarned ← getE player_stats "goldEarned"
      let damageDealt ← getE player_stats "totalDamageDealtToChampions"
      let damageTaken ← getE player_stats "totalDamageTaken"
      let visionScore ← getE player_stats "visionScore"
      let win ← getE player_stats "win"
      let firstBlood ← pyGet player_stats "firstBloodKill" (.bool false)
      let doubleKills ← getE player_stats "doubleKills"
      let tripleKills ← getE player_stats "tripleKills"
      let quadraKills ← getE player_stats "quadraKills"
      let pentaKills ← getE player_stats "pentaKills"
      return some [("matchId", matchId), ("gameCreation", gameCreation),
        ("gameDuration", gameDuration), ("gameMode", gameMode), ("queueId", queueId),
        ("championName", championName), ("championId", championId), ("position", position),
        ("kills", kills), ("deaths", deaths), ("assists", assists),
        ("kdaRatio", kdaRounded), ("cs", cs), ("goldEarned", goldEarned),
        ("damageDealt", damageDealt), ("damageTaken", damageTaken),
        ("visionScore", visionScore), ("win", win), ("firstBlood", firstBlood),
        ("doubleKills", doubleKills), ("tripleKills", tripleKills),
        ("quadraKills", quadraKills), ("pentaKills", pentaKills)]

/-- `json.loads` on a stored object's text. -/
def jloadsContent : Content → Except String JVal
  | .json v => .ok v
  | .csv _ _ => .error "json.loads: stored object is not a JSON document"

/-- The aggregation loop over the listed objects (source lines 51-100):
skip keys not ending in `.json`, read and parse each object, skip matches
without the player, and collect the extracted rows; any exception aborts
the whole request. -/
def collectLoop (puuid : String) :
    List (String × Content) → List Effect × Except String (List (List (String × JVal)))
  | [] => ([], .ok [])
  | (key, c) :: rest =>
      if pyEndsWith key ".json" = false then collectLoop puuid rest
      else
        let readEff : List Effect := [.s3Get key]
        match jloadsContent c with
        | .error e => (readEff, .error e)
        | .ok match_json =>
            match extractStats match_json puuid with
            | .error e => (readEff, .error e)
            | .ok none =>
                let next := collectLoop puuid rest
                (readEff ++ next.1, next.2)
            | .ok (some stats) =>
                let next := collectLoop puuid rest
                (readEff ++ next.1, next.2.map fun l => stats :: l)

/-- The body of `lambda_handler` inside its top-level `try`
(source lines 12-136).  The S3 listing is modelled as always available
(its failure path is another structured 500 response in the source). -/
def procInner (ev : EventBody) (bucket : String) (storage : List (String × Content)) :
    List Effect × Except String Response :=
  match ev with
  | .malformed => ([], .error "json.loads: invalid request body")
  | .parsed body =>
    match getStrField body "puuid" "" with
    | .error e => ([], .error e)
    | .ok puuid =>
    if puuid = "" then ([], .ok ⟨400, errBody "PUUID is required"⟩)
    else
      let keyPrefix := "users/" ++ puuid ++ "/matches/"
      let listed := storage.filter fun kc => pyStartsWith kc.1 keyPrefix
      let e1 : List Effect := [.s3List keyPrefix]
      if listed.isEmpty then
        (e1, .ok ⟨404, errBody "No matches found for this user. Search for a summoner first!"⟩)
      else
        let lr := collectLoop puuid listed
        match lr.2 with
        | .error e => (e1 ++ lr.1, .error e)
        | .ok match_stats =>
            match match_stats with
            | [] => (e1 ++ lr.1, .ok ⟨404, errBody "No valid match data found"⟩)
            | first :: _ =>
                let fieldnames := first.map Prod.fst
                let output_key := "users/" ++ puuid ++ "/processed/match_stats.csv"
                (e1 ++ lr.1 ++ [.put output_key (.csv fieldnames match_stats)],
                 .ok ⟨200, .obj [
                   ("matchesProcessed", .num (match_stats.length : ℚ)),
                   ("stats", .arr (match_stats.map JVal.obj)),
                   ("s3Location", .str ("s3://" ++ bucket ++ "/" ++ output_key)),
                   ("message", .str ("Successfully processed " ++
                     toString match_stats.length ++ " matches"))]⟩)

/-- `lambda_handler` (source lines 7-145): the top-level `try`/`except`
converts any uncaught exception into a 500 response. -/
def lambda_handler (ev : EventBody) (bucket : String) (storage : List (String × Content)) :
    List Effect × Response :=
  let r := procInner ev bucket storage
  (r.1, match r.2 with
    | .ok resp => resp
    | .error e => ⟨500, .obj [("error", .str "Internal server error"), ("detail", .str e)]⟩)

end ProcessMatches

/-! ## Question-answering handler (`src/lambda/query-rag/lambda_function.py`) -/

namespace QueryRag

/-- Error-message rewriting in the top-level `except` (source lines 106-110). -/
def rewriteBedrockError (e : String) : String :=
  if strContains e "AccessDeniedException" then
    "Bedrock access denied. Please enable Claude 3 Haiku model in AWS Bedrock console."
  else if strContains e "ModelNotFound" then
    "Claude 3 Haiku model not found. Please enable it in the Bedrock console."
  else e

/-- `response_body['content'][0]['text']` (source lines 86-87). -/
def bedrockAnswer (bedrockResp : JVal) : Except String JVal := do
  let content ← getE bedrockResp "content"
  let c0 ← getIdxE content 0
  getE c0 "text"

/-- The body of `lambda_handler` inside its top-level `try`
(source lines 12-98).  `bedrockResp` is the parsed body of the model
invocation's response; the prompt embeds the stored table verbatim and is
not further inspected, so it is not reproduced here. -/
def ragInner (ev : EventBody) (storage : List (String × Content)) (bedrockResp : JVal) :
    List Effect × Except String Response :=
  match ev with
  | .malformed => ([], .error "json.loads: invalid request body")
  | .parsed body =>
    match getStrField body "puuid" "" with
    | .error e => ([], .error e)
    | .ok puuid =>
    match getStrField body "question" "" with
    | .error e => ([], .error e)
    | .ok question =>
    if puuid = "" ∨ question = "" then
      ([], .ok ⟨400, errBody "PUUID and question are required"⟩)
    else
      let csv_key := "users/" ++ puuid ++ "/processed/match_stats.csv"
      let e1 : List Effect := [.s3Get csv_key]
      match lookupStorage storage csv_key with
      | none =>
          (e1, .ok ⟨404, .obj [
            ("error", .str "No processed data found. Please click \"Process Stats\" first!"),
            ("hint", .str "Search for a summoner and process their stats before asking questions.")]⟩)
      | some _ =>
          let e2 := e1 ++ [.bedrock]
          match bedrockAnswer bedrockResp with
          | .error e => (e2, .error e)
          | .ok answer =>
              (e2, .ok ⟨200, .obj [("question", .str question), ("answer", answer),
                ("dataSource", .str csv_key)]⟩)

/-- `lambda_handler` (source lines 7-115): the top-level `try`/`except`
converts any uncaught exception into a 500 response, rewriting two known
Bedrock error messages. -/
def lambda_handler (ev : EventBody) (storage : List (String × Content)) (bedrockResp : JVal) :
    List Effect × Response :=
  let r := ragInner ev storage bedrockResp
  (r.1, match r.2 with
    | .ok resp => resp
    | .error e => ⟨500, .obj [("error", .str "Internal server error"),
        ("detail", .str (rewriteBedrockError e))]⟩)

end QueryRag

/-! ## Helper lemmas -/

theorem lookup_eq_none_of_not_mem_keys (l : List (String × String)) (r : String)
    (h : r ∉ l.map Prod.fst) : l.lookup r = none := by
  induction l with
  | nil => rfl
  | cons kv rest ih =>
      obtain ⟨k, v⟩ := kv
      simp only [List.map_cons, List.mem_cons, not_or] at h
      have hk : (r == k) = false := beq_eq_false_iff_ne.mpr h.1
      simp only [List.lookup, hk]
      exact ih h.2

theorem getStrField_ok_obj {body : JVal} {k d s : String}
    (h : getStrField body k d = .ok s) : ∃ kvs, body = .obj kvs := by
  cases body <;> first
    | exact ⟨_, rfl⟩
    | simp [getStrField, pyGet] at h

/-! ## Claim theorems -/

/-- C5: the two region-routing resolvers are pure and deterministic (equal
inputs give the same pair of routing values), every region code outside the
two tables maps to the default cluster `americas` in both, and the region
code `oc1` is routed to different clusters by the two resolvers. -/
theorem c5_region_routing_pure_total_asymmetric :
    (∀ r₁ r₂ : String, r₁ = r₂ →
      (RiotApi.get_account_routing r₁, RiotApi.get_match_routing r₁)
        = (RiotApi.get_account_routing r₂, RiotApi.get_match_routing r₂))
    ∧ (∀ r : String, r ∉ RiotApi.account_routing_map.map Prod.fst →
        r ∉ RiotApi.match_routing_map.map Prod.fst →
        RiotApi.get_account_routing r = "americas"
        ∧ RiotApi.get_match_routing r = "americas")
    ∧ (RiotApi.get_account_routing "oc1" = "americas"
        ∧ RiotApi.get_match_routing "oc1" = "sea"
        ∧ RiotApi.get_account_routing "oc1" ≠ RiotApi.get_match_routing "oc1") := by
  refine ⟨fun r₁ r₂ h => by rw [h], fun r h1 h2 => ⟨?_, ?_⟩, by decide⟩
  · rw [RiotApi.get_account_routing, lookup_eq_none_of_not_mem_keys _ _ h1]
    rfl
  · rw [RiotApi.get_match_routing, lookup_eq_none_of_not_mem_keys _ _ h2]
    rfl

theorem c5_region_routing_witness :
    ((RiotApi.get_account_routing "na1", RiotApi.get_match_routing "na1")
      = (RiotApi.get_account_routing "na1", RiotApi.get_match_routing "na1"))
    ∧ (RiotApi.get_account_routing "zz9" = "americas"
        ∧ RiotApi.get_match_routing "zz9" = "americas") :=
  ⟨c5_region_routing_pure_total_asymmetric.1 "na1" "na1" rfl,
   c5_region_routing_pure_total_asymmetric.2.1 "zz9" (by decide) (by decide)⟩

/-- C6: in each handler, a request whose required field fails validation
(summoner name empty after trimming or lacking `#`; empty stable id; empty
question) gets a 400 response with the handler's diagnostic message, and no
collaborator side effect happens before validation completes. -/
theorem c6_validation_rejects_before_effects :
    (∀ (body : JVal) (up : RiotApi.RiotUpstream) (now : String) (sn : String),
      getStrField body "summonerName" "" = .ok sn →
      (sn = "" ∨ pyContainsChar sn '#' = false) →
      RiotApi.lambda_handler (.parsed body) up now =
        ([], ⟨400, errBody (if sn = "" then "Summoner name is required"
          else "Please use Riot ID format: GameName#TAG (e.g., Iceraze#OC)")⟩))
    ∧ (∀ (body : JVal) (bucket : String) (storage : List (String × Content)),
      getStrField body "puuid" "" = .ok "" →
      ProcessMatches.lambda_handler (.parsed body) bucket storage =
        ([], ⟨400, errBody "PUUID is required"⟩))
    ∧ (∀ (body : JVal) (storage : List (String × Content)) (br : JVal) (pu q : String),
      getStrField body "puuid" "" = .ok pu →
      getStrField body "question" "" = .ok q →
      (pu = "" ∨ q = "") →
      QueryRag.lambda_handler (.parsed body) storage br =
        ([], ⟨400, errBody "PUUID and question are required"⟩)) := by
  refine ⟨?_, ?_, ?_⟩
  · intro body up now sn hsn hval
    obtain ⟨kvs, rfl⟩ := getStrField_ok_obj hsn
    by_cases hsn0 : sn = ""
    · subst hsn0
      simp [RiotApi.lambda_handler, RiotApi.riotInner, hsn, pyGet]
    · have hc : pyContainsChar sn '#' = false := hval.resolve_left hsn0
      simp [RiotApi.lambda_handler, RiotApi.riotInner, hsn, pyGet, hsn0, hc]
  · intro body bucket storage hp
    obtain ⟨kvs, rfl⟩ := getStrField_ok_obj hp
    simp [ProcessMatches.lambda_handler, ProcessMatches.procInner, hp]
  · intro body storage br pu q hp hq hval
    obtain ⟨kvs, rfl⟩ := getStrField_ok_obj hp
    simp only [QueryRag.lambda_handler, QueryRag.ragInner, hp, hq]
    have : (pu = "" ∨ q = "") = True := by simp [hval]
    simp [this]

/-- A fixed sample upstream used only to instantiate witnesses. -/
def sampleUpstream : RiotApi.RiotUpstream :=
  { apiKey := .error "e", account := ⟨0, "", .error "e"⟩,
    summoner := ⟨0, "", .error "e"⟩, matchList := ⟨0, "", .error "e"⟩,
    matchFetch := fun _ => ⟨0, "", .error "e"⟩ }

theorem c6_validation_witness :
    (RiotApi.lambda_handler (.parsed (.obj [("summonerName", .str "FooNA1")]))
      sampleUpstream "T" =
      ([], ⟨400, errBody "Please use Riot ID format: GameName#TAG (e.g., Iceraze#OC)"⟩))
    ∧ (ProcessMatches.lambda_handler (.parsed (.obj [])) "bkt" [] =
      ([], ⟨400, errBody "PUUID is required"⟩))
    ∧ (QueryRag.lambda_handler (.parsed (.obj [("puuid", .str "p1")])) [] .null =
      ([], ⟨400, errBody "PUUID and question are required"⟩)) := by
  refine ⟨?_, ?_, ?_⟩
  · have h := c6_validation_rejects_before_effects.1
      (.obj [("summonerName", .str "FooNA1")]) sampleUpstream "T" "FooNA1"
      (by decide) (by decide)
    simpa using h
  · exact c6_validation_rejects_before_effects.2.1 (.obj []) "bkt" [] (by decide)
  · exact c6_validation_rejects_before_effects.2.2 (.obj [("puuid", .str "p1")]) [] .null
      "p1" "" (by decide) (by decide) (by decide)

/-- C7: a question-answering request for a stable id with no aggregate file
at `users/<id>/processed/match_stats.csv` gets a 404 response whose body
says processing must run first, and the language model is not invoked. -/
theorem c7_missing_aggregate_404_no_model_call :
    ∀ (body : JVal) (storage : List (String × Content)) (br : JVal) (pu q : String),
      getStrField body "puuid" "" = .ok pu →
      getStrField body "question" "" = .ok q →
      pu ≠ "" → q ≠ "" →
      lookupStorage storage ("users/" ++ pu ++ "/processed/match_stats.csv") = none →
      QueryRag.lambda_handler (.parsed body) storage br =
        ([.s3Get ("users/" ++ pu ++ "/processed/match_stats.csv")],
         ⟨404, .obj [
           ("error", .str "No processed data found. Please click \"Process Stats\" first!"),
           ("hint", .str "Search for a summoner and process their stats before asking questions.")]⟩)
      ∧ Effect.bedrock ∉ (QueryRag.lambda_handler (.parsed body) storage br).1 := by
  intro body storage br pu q hp hq hpu hq0 hlook
  obtain ⟨kvs, rfl⟩ := getStrField_ok_obj hp
  have hor : (pu = "" ∨ q = "") = False := by simp [hpu, hq0]
  constructor
  · simp [QueryRag.lambda_handler, QueryRag.ragInner, hp, hq, hor, hlook]
  · simp [QueryRag.lambda_handler, QueryRag.ragInner, hp, hq, hor, hlook]

theorem c7_missing_aggregate_witness :
    QueryRag.lambda_handler (.parsed (.obj [("puuid", .str "p1"), ("question", .str "Q?")]))
      [("users/p2/processed/match_stats.csv", .csv ["a"] [])] .null =
      ([.s3Get "users/p1/processed/match_stats.csv"],
       ⟨404, .obj [
         ("error", .str "No processed data found. Please click \"Process Stats\" first!"),
         ("hint", .str "Search for a summoner and process their stats before asking questions.")]⟩) :=
  (c7_missing_aggregate_404_no_model_call
    (.obj [("puuid", .str "p1"), ("question", .str "Q?")])
    [("users/p2/processed/match_stats.csv", .csv ["a"] [])] .null "p1" "Q?"
    (by decide) (by decide) (by decide) (by decide) (by decide)).1

/-- C8: each of the three handlers is a total function to a structured
response: either the modelled handler body returned a response and the
handler returns exactly it, or the body raised and the top-level catch
converts the exception into a 500 response with an
`Internal server error` body. -/
theorem c8_top_level_catch_structured_response :
    (∀ (ev : EventBody) (up : RiotApi.RiotUpstream) (now : String),
      (∃ resp, (RiotApi.riotInner ev up now).2 = .ok resp
        ∧ (RiotApi.lambda_handler ev up now).2 = resp)
      ∨ (∃ e, (RiotApi.riotInner ev up now).2 = .error e
        ∧ (RiotApi.lambda_handler ev up now).2 =
            ⟨500, .obj [("error", .str "Internal server error"), ("detail", .str e)]⟩))
    ∧ (∀ (ev : EventBody) (bucket : String) (storage : List (String × Content)),
      (∃ resp, (ProcessMatches.procInner ev bucket storage).2 = .ok resp
        ∧ (ProcessMatches.lambda_handler ev bucket storage).2 = resp)
      ∨ (∃ e, (ProcessMatches.procInner ev bucket storage).2 = .error e
        ∧ (ProcessMatches.lambda_handler ev bucket storage).2 =
            ⟨500, .obj [("error", .str "Internal server error"), ("detail", .str e)]⟩))
    ∧ (∀ (ev : EventBody) (storage : List (String × Content)) (br : JVal),
      (∃ resp, (QueryRag.ragInner ev storage br).2 = .ok resp
        ∧ (QueryRag.lambda_handler ev storage br).2 = resp)
      ∨ (∃ e, (QueryRag.ragInner ev storage br).2 = .error e
        ∧ (QueryRag.lambda_handler ev storage br).2 =
            ⟨500, .obj [("error", .str "Internal server error"),
              ("detail", .str (QueryRag.rewriteBedrockError e))]⟩)) := by
  refine ⟨?_, ?_, ?_⟩
  · intro ev up now
    cases h : (RiotApi.riotInner ev up now).2 with
    | ok resp => exact .inl ⟨resp, rfl, by simp [RiotApi.lambda_handler, h]⟩
    | error e => exact .inr ⟨e, rfl, by simp [RiotApi.lambda_handler, h]⟩
  · intro ev bucket storage
    cases h : (ProcessMatches.procInner ev bucket storage).2 with
    | ok resp => exact .inl ⟨resp, rfl, by simp [ProcessMatches.lambda_handler, h]⟩
    | error e => exact .inr ⟨e, rfl, by simp [ProcessMatches.lambda_handler, h]⟩
  · intro ev storage br
    cases h : (QueryRag.ragInner ev storage br).2 with
    | ok resp => exact .inl ⟨resp, rfl, by simp [QueryRag.lambda_handler, h]⟩
    | error e => exact .inr ⟨e, rfl, by simp [QueryRag.lambda_handler, h]⟩

theorem exBind_ok {α β : Type} {x : Except String α} {f : α → Except String β} {b : β} :
    x >>= f = .ok b ↔ ∃ a, x = .ok a ∧ f a = .ok b := by
  cases x <;> simp [Bind.bind, Except.bind]

theorem exPure_ok {α : Type} {a b : α} :
    (pure a : Except String α) = .ok b ↔ a = b := by
  simp [pure, Except.pure]

theorem pyFalsy_false_of_getE_ok {v w : JVal} {k : String}
    (h : getE v k = .ok w) : pyFalsy v = false := by
  cases v with
  | obj kvs =>
      cases kvs with
      | nil => simp [getE, jlookup] at h
      | cons kv rest => simp [pyFalsy, List.isEmpty]
  | null => simp [getE] at h
  | bool b => simp [getE] at h
  | num q => simp [getE] at h
  | str s => simp [getE] at h
  | arr xs => simp [getE] at h

/-- C1: for every raw match record whose participants include the queried
stable id, the aggregation handler's extraction yields a record whose
`kdaRatio` is `(kills + assists) / max(deaths, 1)` rounded to two decimal
places and whose `cs` is `totalMinionsKilled + neutralMinionsKilled`. -/
theorem c1_kdaRatio_cs_formula :
    ∀ (match_json : JVal) (puuid : String) (pd : JVal) (row : List (String × JVal))
      (k d a tm nm : ℚ) (info parts : JVal) (partsList : List JVal),
      getE match_json "info" = .ok info →
      getE info "participants" = .ok parts →
      toIterE parts = .ok partsList →
      findParticipantE partsList (.str puuid) = .ok (some pd) →
      getE pd "kills" = .ok (.num k) →
      getE pd "deaths" = .ok (.num d) →
      getE pd "assists" = .ok (.num a) →
      getE pd "totalMinionsKilled" = .ok (.num tm) →
      getE pd "neutralMinionsKilled" = .ok (.num nm) →
      ProcessMatches.extractStats match_json puuid = .ok (some row) →
      jlookup row "kdaRatio" = some (.num (round2 ((k + a) / max d 1)))
      ∧ jlookup row "cs" = some (.num (tm + nm)) := by
  intro match_json puuid pd row k d a tm nm info parts partsList
  intro h1 h2 h3 h4 hk hd ha htm hnm hsucc
  have hmax : (max d 1 : ℚ) ≠ 0 := by
    have h1le : (1 : ℚ) ≤ max d 1 := le_max_right d 1
    intro h0
    rw [h0] at h1le
    linarith
  have hfal : pyFalsy pd = false := pyFalsy_false_of_getE_ok hk
  simp only [ProcessMatches.extractStats, h1, h2, h3, h4, exBind_ok, exPure_ok,
    Except.ok.injEq, exists_eq_left, exists_eq_left', hfal, Bool.false_eq_true,
    if_false] at hsucc
  obtain ⟨md, hmd, mid, hmid, gc, hgc, gdur, hgdur, gm, hgm, qid, hqid, cn, hcn, ci, hci,
    pos, hpos, ki, hki, de, hde, asv, hasv, ksum, hksum, kden, hkden, kq, hkq,
    kr, hkr, tmv, htmv, nmv, hnmv, csval, hcsval, ge, hge, dd, hdd, dt, hdt, vs, hvs,
    wi, hwi, fb, hfb, dk, hdk, tk, htk, qk, hqk, pk, hpk, hrow⟩ := hsucc
  rw [hk] at hki
  injection hki with hki
  subst hki
  rw [hd] at hde
  injection hde with hde
  subst hde
  rw [ha] at hasv
  injection hasv with hasv
  subst hasv
  rw [htm] at htmv
  injection htmv with htmv
  subst htmv
  rw [hnm] at hnmv
  injection hnmv with hnmv
  subst hnmv
  simp only [pyAddE, toNumQ, Except.ok.injEq] at hksum hcsval
  subst hksum
  simp only [pyMaxE, toNumQ, Except.ok.injEq] at hkden
  subst hkden
  simp only [pyDivE, toNumQ] at hkq
  rw [if_neg hmax] at hkq
  injection hkq with hkq
  subst hkq
  simp only [pyRoundE, toNumQ, Except.ok.injEq] at hkr
  subst hkr
  subst hcsval
  injection hrow with hrow
  subst hrow
  constructor
  · simp [jlookup, qAdd_eq]
    rw [qDiv_eq _ _ hmax]
  · simp [jlookup, qAdd_eq]

/-- A well-formed participant record for the sample player `p1`. -/
def sampleParticipant : JVal := .obj [("puuid", .str "p1"), ("championName", .str "Ahri"),
  ("championId", .num 103), ("teamPosition", .str "MIDDLE"),
  ("individualPosition", .str "MIDDLE"), ("kills", .num 3), ("deaths", .num 2),
  ("assists", .num 4), ("totalMinionsKilled", .num 100), ("neutralMinionsKilled", .num 20),
  ("goldEarned", .num 10000), ("totalDamageDealtToChampions", .num 15000),
  ("totalDamageTaken", .num 9000), ("visionScore", .num 25), ("win", .bool true),
  ("item0", .num 1), ("item1", .num 2), ("item2", .num 3), ("item3", .num 4),
  ("item4", .num 5), ("item5", .num 6), ("item6", .num 7),
  ("summoner1Id", .num 4), ("summoner2Id", .num 12),
  ("perks", .obj [("styles", .arr [
     .obj [("style", .num 8100), ("selections", .arr [.obj [("perk", .num 8112)]])],
     .obj [("style", .num 8300)]])]),
  ("doubleKills", .num 0), ("tripleKills", .num 0), ("quadraKills", .num 0),
  ("pentaKills", .num 0), ("firstBloodKill", .bool false)]

/-- The `info` object of the sample match. -/
def sampleInfo : JVal := .obj [("gameCreation", .num 17), ("gameDuration", .num 1800),
  ("gameMode", .str "CLASSIC"), ("queueId", .num 420),
  ("participants", .arr [sampleParticipant])]

/-- A well-formed raw match record in which `p1` appears. -/
def sampleMatch : JVal := .obj [("metadata", .obj [("matchId", .str "M1")]),
  ("info", sampleInfo)]

/-- The statistics row the aggregation handler extracts from `sampleMatch`. -/
def sampleRow : List (String × JVal) := [("matchId", .str "M1"),
  ("gameCreation", .num 17), ("gameDuration", .num 1800), ("gameMode", .str "CLASSIC"),
  ("queueId", .num 420), ("championName", .str "Ahri"), ("championId", .num 103),
  ("position", .str "MIDDLE"), ("kills", .num 3), ("deaths", .num 2), ("assists", .num 4),
  ("kdaRatio", .num (ratMk 7 2)), ("cs", .num 120), ("goldEarned", .num 10000),
  ("damageDealt", .num 15000), ("damageTaken", .num 9000), ("visionScore", .num 25),
  ("win", .bool true), ("firstBlood", .bool false), ("doubleKills", .num 0),
  ("tripleKills", .num 0), ("quadraKills", .num 0), ("pentaKills", .num 0)]

theorem c1_kdaRatio_cs_witness :
    ProcessMatches.extractStats sampleMatch "p1" = .ok (some sampleRow)
    ∧ jlookup sampleRow "kdaRatio" = some (.num (round2 ((3 + 4) / max 2 1)))
    ∧ jlookup sampleRow "cs" = some (.num (100 + 20)) := by
  refine ⟨by decide, ?_, ?_⟩
  · exact (c1_kdaRatio_cs_formula sampleMatch "p1" sampleParticipant sampleRow
      3 2 4 100 20 sampleInfo (.arr [sampleParticipant]) [sampleParticipant]
      (by decide) (by decide) (by decide) (by decide) (by decide) (by decide)
      (by decide) (by decide) (by decide) (by decide)).1
  · exact (c1_kdaRatio_cs_formula sampleMatch "p1" sampleParticipant sampleRow
      3 2 4 100 20 sampleInfo (.arr [sampleParticipant]) [sampleParticipant]
      (by decide) (by decide) (by decide) (by decide) (by decide) (by decide)
      (by decide) (by decide) (by decide) (by decide)).2

/-- Whether one stored object yields a valid extracted-statistics row for
`puuid` in the aggregation handler. -/
def ProcessMatches.validRow (puuid : String) (c : Content) : Bool :=
  match ProcessMatches.jloadsContent c with
  | .ok mj =>
      match ProcessMatches.extractStats mj puuid with
      | .ok (some _) => true
      | _ => false
  | .error _ => false

theorem collectLoop_no_put (p : String) :
    ∀ (l : List (String × Content)) (k : String) (c : Content),
      Effect.put k c ∉ (ProcessMatches.collectLoop p l).1 := by
  intro l
  induction l with
  | nil => intro k c h; simp [ProcessMatches.collectLoop] at h
  | cons kv rest ih =>
      intro k c h
      obtain ⟨key, cc⟩ := kv
      simp only [ProcessMatches.collectLoop] at h
      by_cases he : pyEndsWith key ".json" = false
      · rw [if_pos (by simp [he])] at h
        exact ih k c h
      · rw [if_neg (by simp at he ⊢; exact he)] at h
        cases hj : ProcessMatches.jloadsContent cc with
        | error e => simp only [hj] at h; simp at h
        | ok mj =>
            simp only [hj] at h
            cases hx : ProcessMatches.extractStats mj p with
            | error e => simp only [hx] at h; simp at h
            | ok o =>
                simp only [hx] at h
                cases o with
                | none =>
                    simp only [List.cons_append, List.nil_append, List.mem_cons] at h
                    rcases h with h | h
                    · exact Effect.noConfusion h
                    · exact ih k c h
                | some stats =>
                    simp only [List.cons_append, List.nil_append, List.mem_cons] at h
                    rcases h with h | h
                    · exact Effect.noConfusion h
                    · exact ih k c h

theorem collectLoop_length (p : String) :
    ∀ (l : List (String × Content)) (rows : List (List (String × JVal))),
      (ProcessMatches.collectLoop p l).2 = .ok rows →
      rows.length = l.countP
        (fun kc => pyEndsWith kc.1 ".json" && ProcessMatches.validRow p kc.2) := by
  intro l
  induction l with
  | nil =>
      intro rows h
      simp only [ProcessMatches.collectLoop, Except.ok.injEq] at h
      subst h
      rfl
  | cons kv rest ih =>
      intro rows h
      obtain ⟨key, cc⟩ := kv
      simp only [ProcessMatches.collectLoop] at h
      rw [List.countP_cons]
      by_cases he : pyEndsWith key ".json" = false
      · rw [if_pos (by simp [he])] at h
        simp only [he, Bool.false_and, if_neg (by simp : ¬ (false = true)), Nat.add_zero]
        exact ih rows h
      · have he' : pyEndsWith key ".json" = true := by
          cases hb : pyEndsWith key ".json"
          · exact absurd hb he
          · rfl
        rw [if_neg (by simp [he'])] at h
        cases hj : ProcessMatches.jloadsContent cc with
        | error e => simp only [hj] at h; simp at h
        | ok mj =>
            simp only [hj] at h
            cases hx : ProcessMatches.extractStats mj p with
            | error e => simp only [hx] at h; simp at h
            | ok o =>
                simp only [hx] at h
                cases o with
                | none =>
                    have hv : ProcessMatches.validRow p cc = false := by
                      simp [ProcessMatches.validRow, hj, hx]
                    simp only [he', hv, Bool.and_false,
                      if_neg (by simp : ¬ (false = true)), Nat.add_zero]
                    exact ih rows h
                | some stats =>
                    have hv : ProcessMatches.validRow p cc = true := by
                      simp [ProcessMatches.validRow, hj, hx]
                    simp only [he', hv, Bool.and_true, if_pos rfl]
                    cases hnext : (ProcessMatches.collectLoop p rest).2 with
                    | error e => simp only [hnext, Except.map] at h; simp at h
                    | ok rs =>
                        simp only [hnext] at h
                        simp only [Except.map, Except.ok.injEq] at h
                        subst h
                        simp [ih rs hnext]

/-- C2: for the aggregation handler, when the per-match extraction completes
on every stored match of the player (no exception), zero valid rows yield a
404 not-found response with no aggregate file written, and N ≥ 1 valid rows
yield a 200 response and a stored table with exactly N data rows whose
header is the field list of the first extracted record. -/
theorem c2_aggregation_rows_and_header :
    ∀ (body : JVal) (bucket : String) (storage : List (String × Content))
      (puuid : String) (rows : List (List (String × JVal))),
      getStrField body "puuid" "" = .ok puuid →
      puuid ≠ "" →
      (ProcessMatches.collectLoop puuid (storage.filter fun kc =>
          pyStartsWith kc.1 ("users/" ++ puuid ++ "/matches/"))).2 = .ok rows →
      (rows = [] →
        (ProcessMatches.lambda_handler (.parsed body) bucket storage).2.statusCode = 404
        ∧ ∀ k c, Effect.put k c ∉
            (ProcessMatches.lambda_handler (.parsed body) bucket storage).1)
      ∧ (∀ r0 rs, rows = r0 :: rs →
        (ProcessMatches.lambda_handler (.parsed body) bucket storage).2.statusCode = 200
        ∧ jfield (ProcessMatches.lambda_handler (.parsed body) bucket storage).2.body
            "matchesProcessed" = some (.num (rows.length : ℚ))
        ∧ jfield (ProcessMatches.lambda_handler (.parsed body) bucket storage).2.body
            "stats" = some (.arr (rows.map JVal.obj))
        ∧ Effect.put ("users/" ++ puuid ++ "/processed/match_stats.csv")
            (.csv (r0.map Prod.fst) rows)
            ∈ (ProcessMatches.lambda_handler (.parsed body) bucket storage).1
        ∧ rows.length = (storage.filter fun kc =>
            pyStartsWith kc.1 ("users/" ++ puuid ++ "/matches/")).countP
            (fun kc => pyEndsWith kc.1 ".json" && ProcessMatches.validRow puuid kc.2)) := by
  intro body bucket storage puuid rows hp hpne hcollect
  obtain ⟨kvs, rfl⟩ := getStrField_ok_obj hp
  have hcount := collectLoop_length puuid _ rows hcollect
  by_cases hemp : (storage.filter fun kc =>
      pyStartsWith kc.1 ("users/" ++ puuid ++ "/matches/")).isEmpty = true
  · have hfe : storage.filter (fun kc =>
        pyStartsWith kc.1 ("users/" ++ puuid ++ "/matches/")) = [] :=
      List.isEmpty_iff.mp hemp
    rw [hfe] at hcollect
    simp only [ProcessMatches.collectLoop, Except.ok.injEq] at hcollect
    constructor
    · intro _
      constructor
      · simp [ProcessMatches.lambda_handler, ProcessMatches.procInner, hp, hpne, hemp]
      · intro k c
        simp [ProcessMatches.lambda_handler, ProcessMatches.procInner, hp, hpne, hemp]
    · intro r0 rs hr
      rw [hr] at hcollect
      exact absurd hcollect.symm (List.cons_ne_nil r0 rs)
  · constructor
    · intro hr0
      subst hr0
      constructor
      · simp [ProcessMatches.lambda_handler, ProcessMatches.procInner, hp, hpne, hemp,
          hcollect]
      · intro k c hc
        apply collectLoop_no_put puuid (storage.filter fun kc =>
          pyStartsWith kc.1 ("users/" ++ puuid ++ "/matches/")) k c
        simpa [ProcessMatches.lambda_handler, ProcessMatches.procInner, hp, hpne, hemp,
          hcollect] using hc
    · intro r0 rs hr
      subst hr
      refine ⟨?_, ?_, ?_, ?_, hcount⟩
      · simp [ProcessMatches.lambda_handler, ProcessMatches.procInner, hp, hpne, hemp,
          hcollect]
      · simp [ProcessMatches.lambda_handler, ProcessMatches.procInner, hp, hpne, hemp,
          hcollect, jfield, jlookup]
      · simp [ProcessMatches.lambda_handler, ProcessMatches.procInner, hp, hpne, hemp,
          hcollect, jfield, jlookup]
      · simp [ProcessMatches.lambda_handler, ProcessMatches.procInner, hp, hpne, hemp,
          hcollect]

theorem processLoop_put_shape (up : RiotApi.RiotUpstream) (pid : String) (target : JVal) :
    ∀ (l : List JVal) (k : String) (c : Content),
      Effect.put k c ∈ (RiotApi.processLoop up pid target l).1 →
      ∃ mid, k = "users/" ++ pid ++ "/matches/" ++ mid ++ ".json" := by
  intro l
  induction l with
  | nil => intro k c h; simp [RiotApi.processLoop] at h
  | cons match_id rest ih =>
      intro k c h
      simp only [RiotApi.processLoop] at h
      by_cases hst : (up.matchFetch (pyStr match_id)).status ≠ 200
      · rw [if_pos hst] at h
        simp only [List.cons_append, List.nil_append, List.mem_cons] at h
        rcases h with h | h
        · exact Effect.noConfusion h
        · exact ih k c h
      · rw [if_neg hst] at h
        cases hb : (up.matchFetch (pyStr match_id)).body with
        | error e => simp only [hb] at h; simp at h
        | ok match_data =>
            simp only [hb] at h
            cases hx : RiotApi.extract_player_stats match_data target with
            | none =>
                simp only [hx] at h
                simp only [List.append_assoc, List.cons_append, List.nil_append,
                  List.mem_cons] at h
                rcases h with h | h | h
                · exact Effect.noConfusion h
                · rw [Effect.put.injEq] at h
                  exact ⟨pyStr match_id, h.1⟩
                · exact ih k c h
            | some player_stats =>
                simp only [hx] at h
                cases hmk : RiotApi.mkEntry match_id
                    ("users/" ++ pid ++ "/matches/" ++ pyStr match_id ++ ".json")
                    player_stats with
                | error e =>
                    simp only [hmk] at h
                    simp only [List.cons_append, List.nil_append, List.mem_cons,
                      List.mem_singleton, Effect.put.injEq, List.not_mem_nil,
                      or_false] at h
                    rcases h with h | h
                    · exact Effect.noConfusion h
                    · exact ⟨pyStr match_id, h.1⟩
                | ok entry =>
                    simp only [hmk] at h
                    simp only [List.append_assoc, List.cons_append, List.nil_append,
                      List.mem_cons] at h
                    rcases h with h | h | h
                    · exact Effect.noConfusion h
                    · rw [Effect.put.injEq] at h
                      exact ⟨pyStr match_id, h.1⟩
                    · exact ih k c h

/-- The stable id the ingestion request resolved (as used in storage keys):
the stringified `puuid` field of the parsed account response. -/
def RiotApi.resolvedPid (up : RiotApi.RiotUpstream) : String :=
  match up.account.body with
  | .ok account_data =>
      match getE account_data "puuid" with
      | .ok puuid => pyStr puuid
      | .error _ => ""
  | .error _ => ""

theorem riotInner_anatomy (ev : EventBody) (up : RiotApi.RiotUpstream) (now : String) :
    (∀ k c, Effect.put k c ∈ (RiotApi.riotInner ev up now).1 →
      k = "users/" ++ RiotApi.resolvedPid up ++ "/profile.json"
      ∨ ∃ mid, k = "users/" ++ RiotApi.resolvedPid up ++ "/matches/" ++ mid ++ ".json")
    ∧ (∀ resp : Response, (RiotApi.riotInner ev up now).2 = .ok resp →
      resp.statusCode = 200 →
      ∃ ps : List JVal,
        jfield resp.body "matchesProcessed" = some (.num (ps.length : ℚ))
        ∧ jfield resp.body "matches" = some (.arr ps)
        ∧ ∃ target mids, (RiotApi.processLoop up (RiotApi.resolvedPid up) target mids).2
            = .ok ps) := by
  cases ev with
  | malformed =>
      exact ⟨fun k c h => by simp [RiotApi.riotInner] at h,
        fun resp hr h200 => by simp [RiotApi.riotInner] at hr⟩
  | parsed body =>
  simp only [RiotApi.riotInner]
  cases hsf : getStrField body "summonerName" "" with
  | error e =>
      exact ⟨fun k c h => by simp at h, fun resp hr h200 => by simp at hr⟩
  | ok sn =>
  cases hrg : pyGet body "region" (.str "oc1") with
  | error e =>
      exact ⟨fun k c h => by simp at h, fun resp hr h200 => by simp at hr⟩
  | ok region =>
  dsimp only []
  by_cases hsn0 : sn = ""
  · rw [if_pos hsn0]
    refine ⟨fun k c h => by simp at h, fun resp hr h200 => ?_⟩
    simp only [Except.ok.injEq] at hr
    subst hr
    simp at h200
  · rw [if_neg hsn0]
    by_cases hhash : pyContainsChar sn '#' = false
    · rw [if_pos hhash]
      refine ⟨fun k c h => by simp at h, fun resp hr h200 => ?_⟩
      simp only [Except.ok.injEq] at hr
      subst hr
      simp at h200
    · rw [if_neg hhash]
      cases hkey : up.apiKey with
      | error e =>
          refine ⟨fun k c h => by simp at h, fun resp hr h200 => ?_⟩
          simp only [Except.ok.injEq] at hr
          subst hr
          simp at h200
      | ok apikey =>
      dsimp only []
      by_cases h404 : up.account.status = 404
      · rw [if_pos h404]
        refine ⟨fun k c h => by simp at h, fun resp hr h200 => ?_⟩
        simp only [Except.ok.injEq] at hr
        subst hr
        simp at h200
      · rw [if_neg h404]
        by_cases h403 : up.account.status = 403
        · rw [if_pos h403]
          refine ⟨fun k c h => by simp at h, fun resp hr h200 => ?_⟩
          simp only [Except.ok.injEq] at hr
          subst hr
          simp at h200
        · rw [if_neg h403]
          by_cases hne200 : up.account.status ≠ 200
          · rw [if_pos hne200]
            refine ⟨fun k c h => by simp at h, fun resp hr h200 => ?_⟩
            simp only [Except.ok.injEq] at hr
            subst hr
            exact absurd h200 hne200
          · rw [if_neg hne200]
            cases har : up.account.body with
            | error e =>
                exact ⟨fun k c h => by simp at h, fun resp hr h200 => by simp at hr⟩
            | ok account_data =>
            dsimp only []
            cases hpu : getE account_data "puuid" with
            | error e =>
                exact ⟨fun k c h => by simp at h, fun resp hr h200 => by simp at hr⟩
            | ok puuid =>
            dsimp only []
            have hrp : RiotApi.resolvedPid up = pyStr puuid := by
              simp [RiotApi.resolvedPid, har, hpu]
            by_cases hsl : pySliceable puuid = false
            · rw [if_pos hsl]
              exact ⟨fun k c h => by simp at h, fun resp hr h200 => by simp at hr⟩
            · rw [if_neg hsl]
              by_cases hs200 : up.summoner.status ≠ 200
              · rw [if_pos hs200]
                refine ⟨fun k c h => by simp at h, fun resp hr h200 => ?_⟩
                simp only [Except.ok.injEq] at hr
                subst hr
                simp at h200
              · rw [if_neg hs200]
                cases hsb : up.summoner.body with
                | error e =>
                    exact ⟨fun k c h => by simp at h, fun resp hr h200 => by simp at hr⟩
                | ok summoner_data =>
                dsimp only []
                cases hgn : getE account_data "gameName" with
                | error e =>
                    exact ⟨fun k c h => by simp at h, fun resp hr h200 => by simp at hr⟩
                | ok gameName =>
                dsimp only []
                cases htl : getE account_data "tagLine" with
                | error e =>
                    exact ⟨fun k c h => by simp at h, fun resp hr h200 => by simp at hr⟩
                | ok tagLine =>
                dsimp only []
                cases hlv : getE summoner_data "summonerLevel" with
                | error e =>
                    exact ⟨fun k c h => by simp at h, fun resp hr h200 => by simp at hr⟩
                | ok summonerLevel =>
                dsimp only []
                by_cases hml : up.matchList.status ≠ 200
                · rw [if_pos hml]
                  refine ⟨fun k c h => ?_, fun resp hr h200 => ?_⟩
                  · simp only [List.append_assoc, List.cons_append, List.nil_append,
                      List.mem_cons, List.mem_singleton, List.not_mem_nil, or_false] at h
                    rcases h with h | h | h | h | h
                    · exact Effect.noConfusion h
                    · exact Effect.noConfusion h
                    · exact Effect.noConfusion h
                    · rw [Effect.put.injEq] at h
                      exact Or.inl (by rw [hrp]; exact h.1)
                    · exact Effect.noConfusion h
                  · simp only [Except.ok.injEq] at hr
                    subst hr
                    exact absurd h200 hml
                · rw [if_neg hml]
                  cases hmb : up.matchList.body with
                  | error e =>
                      refine ⟨fun k c h => ?_, fun resp hr h200 => by simp at hr⟩
                      simp only [List.append_assoc, List.cons_append, List.nil_append,
                        List.mem_cons, List.mem_singleton, List.not_mem_nil, or_false] at h
                      rcases h with h | h | h | h | h
                      · exact Effect.noConfusion h
                      · exact Effect.noConfusion h
                      · exact Effect.noConfusion h
                      · rw [Effect.put.injEq] at h
                        exact Or.inl (by rw [hrp]; exact h.1)
                      · exact Effect.noConfusion h
                  | ok match_ids =>
                  dsimp only []
                  by_cases hfal : pyFalsy match_ids = true
                  · rw [if_pos hfal]
                    refine ⟨fun k c h => ?_, fun resp hr h200 => ?_⟩
                    · simp only [List.append_assoc, List.cons_append, List.nil_append,
                        List.mem_cons, List.mem_singleton, List.not_mem_nil, or_false] at h
                      rcases h with h | h | h | h | h
                      · exact Effect.noConfusion h
                      · exact Effect.noConfusion h
                      · exact Effect.noConfusion h
                      · rw [Effect.put.injEq] at h
                        exact Or.inl (by rw [hrp]; exact h.1)
                      · exact Effect.noConfusion h
                    · simp only [Except.ok.injEq] at hr
                      subst hr
                      simp at h200
                  · rw [if_neg hfal]
                    cases hit : toIterE match_ids with
                    | error e =>
                        refine ⟨fun k c h => ?_, fun resp hr h200 => by simp at hr⟩
                        simp only [List.append_assoc, List.cons_append, List.nil_append,
                          List.mem_cons, List.mem_singleton, List.not_mem_nil, or_false] at h
                        rcases h with h | h | h | h | h
                        · exact Effect.noConfusion h
                        · exact Effect.noConfusion h
                        · exact Effect.noConfusion h
                        · rw [Effect.put.injEq] at h
                          exact Or.inl (by rw [hrp]; exact h.1)
                        · exact Effect.noConfusion h
                    | ok mids =>
                    dsimp only []
                    cases hloop : (RiotApi.processLoop up (pyStr puuid) puuid mids).2 with
                    | error e =>
                        dsimp only []
                        refine ⟨fun k c h => ?_, fun resp hr h200 => by simp at hr⟩
                        simp only [List.append_assoc, List.cons_append, List.nil_append,
                          List.mem_cons, List.mem_append, List.mem_singleton] at h
                        rcases h with h | h | h | h | h | h
                        · exact Effect.noConfusion h
                        · exact Effect.noConfusion h
                        · exact Effect.noConfusion h
                        · rw [Effect.put.injEq] at h
                          exact Or.inl (by rw [hrp]; exact h.1)
                        · exact Effect.noConfusion h
                        · refine Or.inr ?_
                          rw [hrp]
                          exact processLoop_put_shape up (pyStr puuid) puuid mids k c h
                    | ok processed_matches =>
                        dsimp only []
                        refine ⟨fun k c h => ?_, fun resp hr h200 => ?_⟩
                        · simp only [List.append_assoc, List.cons_append, List.nil_append,
                            List.mem_cons, List.mem_append, List.mem_singleton] at h
                          rcases h with h | h | h | h | h | h
                          · exact Effect.noConfusion h
                          · exact Effect.noConfusion h
                          · exact Effect.noConfusion h
                          · rw [Effect.put.injEq] at h
                            exact Or.inl (by rw [hrp]; exact h.1)
                          · exact Effect.noConfusion h
                          · refine Or.inr ?_
                            rw [hrp]
                            exact processLoop_put_shape up (pyStr puuid) puuid mids k c h
                        · simp only [Except.ok.injEq] at hr
                          subst hr
                          refine ⟨processed_matches, ?_, ?_, puuid, mids, ?_⟩
                          · simp [jfield, jlookup]
                          · simp [jfield, jlookup]
                          · rw [hrp]
                            exact hloop

theorem ragInner_no_put (ev : EventBody) (storage : List (String × Content)) (br : JVal) :
    ∀ (k : String) (c : Content), Effect.put k c ∉ (QueryRag.ragInner ev storage br).1 := by
  intro k c h
  cases ev with
  | malformed => simp [QueryRag.ragInner] at h
  | parsed body =>
      simp only [QueryRag.ragInner] at h
      cases hp : getStrField body "puuid" "" with
      | error e => simp only [hp] at h; simp at h
      | ok pu =>
          simp only [hp] at h
          cases hq : getStrField body "question" "" with
          | error e => simp only [hq] at h; simp at h
          | ok q =>
              simp only [hq] at h
              by_cases hor : pu = "" ∨ q = ""
              · rw [if_pos hor] at h
                simp at h
              · rw [if_neg hor] at h
                cases hl : lookupStorage storage
                    ("users/" ++ pu ++ "/processed/match_stats.csv") with
                | none => simp only [hl] at h; simp at h
                | some cc =>
                    simp only [hl] at h
                    cases hans : QueryRag.bedrockAnswer br with
                    | error e => simp only [hans] at h; simp at h
                    | ok answer => simp only [hans] at h; simp at h

theorem procInner_put_key (bucket : String) (storage : List (String × Content))
    (body : JVal) (puuid : String)
    (hp : getStrField body "puuid" "" = .ok puuid) :
    ∀ (k : String) (c : Content),
      Effect.put k c ∈ (ProcessMatches.procInner (.parsed body) bucket storage).1 →
      k = "users/" ++ puuid ++ "/processed/match_stats.csv" := by
  intro k c h
  simp only [ProcessMatches.procInner, hp] at h
  by_cases hpe : puuid = ""
  · rw [if_pos hpe] at h
    simp at h
  · rw [if_neg hpe] at h
    by_cases hemp : (storage.filter fun kc =>
        pyStartsWith kc.1 ("users/" ++ puuid ++ "/matches/")).isEmpty = true
    · rw [if_pos hemp] at h
      simp at h
    · rw [if_neg hemp] at h
      cases hcl : (ProcessMatches.collectLoop puuid (storage.filter fun kc =>
          pyStartsWith kc.1 ("users/" ++ puuid ++ "/matches/"))).2 with
      | error e =>
          simp only [hcl] at h
          simp only [List.cons_append, List.nil_append, List.mem_cons] at h
          rcases h with h | h
          · exact Effect.noConfusion h
          · exact absurd h (collectLoop_no_put puuid _ k c)
      | ok rows =>
          simp only [hcl] at h
          cases rows with
          | nil =>
              simp only [List.cons_append, List.nil_append, List.mem_cons] at h
              rcases h with h | h
              · exact Effect.noConfusion h
              · exact absurd h (collectLoop_no_put puuid _ k c)
          | cons r0 rs =>
              simp only [List.append_assoc, List.cons_append, List.nil_append,
                List.mem_cons, List.mem_append, List.mem_singleton,
                Effect.put.injEq, List.not_mem_nil, or_false] at h
              rcases h with h | h | h
              · exact Effect.noConfusion h
              · exact absurd h (collectLoop_no_put puuid _ k c)
              · exact h.1

/-- C9: every storage write of any handler is keyed under the prefix
`users/<stableId>/` of the single player the request resolved, following
the fixed layout: the ingestion handler writes `profile.json` and
`matches/<matchId>.json` under the resolved puuid, the aggregation handler
writes only `processed/match_stats.csv` under the requested puuid, and the
question-answering handler writes nothing. -/
theorem c9_storage_key_layout :
    (∀ (ev : EventBody) (up : RiotApi.RiotUpstream) (now : String) (k : String) (c : Content),
      Effect.put k c ∈ (RiotApi.lambda_handler ev up now).1 →
      k = "users/" ++ RiotApi.resolvedPid up ++ "/profile.json"
      ∨ ∃ mid, k = "users/" ++ RiotApi.resolvedPid up ++ "/matches/" ++ mid ++ ".json")
    ∧ (∀ (body : JVal) (bucket : String) (storage : List (String × Content))
        (puuid : String) (k : String) (c : Content),
      getStrField body "puuid" "" = .ok puuid →
      Effect.put k c ∈ (ProcessMatches.lambda_handler (.parsed body) bucket storage).1 →
      k = "users/" ++ puuid ++ "/processed/match_stats.csv")
    ∧ (∀ (ev : EventBody) (storage : List (String × Content)) (br : JVal) (k : String)
        (c : Content), Effect.put k c ∉ (QueryRag.lambda_handler ev storage br).1) := by
  refine ⟨?_, ?_, ?_⟩
  · intro ev up now k c h
    exact (riotInner_anatomy ev up now).1 k c h
  · intro body bucket storage puuid k c hp h
    exact procInner_put_key bucket storage body puuid hp k c h
  · intro ev storage br k c h
    exact ragInner_no_put ev storage br k c h

theorem processLoop_writes_raw (up : RiotApi.RiotUpstream) (pid : String) (target : JVal) :
    ∀ (mids : List JVal) (ps : List JVal) (mid : JVal) (mj : JVal),
      (RiotApi.processLoop up pid target mids).2 = .ok ps →
      mid ∈ mids →
      (up.matchFetch (pyStr mid)).status = 200 →
      (up.matchFetch (pyStr mid)).body = .ok mj →
      Effect.put ("users/" ++ pid ++ "/matches/" ++ pyStr mid ++ ".json") (.json mj)
        ∈ (RiotApi.processLoop up pid target mids).1 := by
  intro mids
  induction mids with
  | nil => intro ps mid mj _ hmem; simp at hmem
  | cons m rest ih =>
      intro ps mid mj hok hmem hst hb
      simp only [RiotApi.processLoop] at hok ⊢
      by_cases hstm : (up.matchFetch (pyStr m)).status ≠ 200
      · rw [if_pos hstm] at hok ⊢
        rcases List.mem_cons.mp hmem with rfl | hmem'
        · exact absurd hst hstm
        · simp only [List.cons_append, List.nil_append, List.mem_cons]
          exact Or.inr (ih ps mid mj hok hmem' hst hb)
      · rw [if_neg hstm] at hok ⊢
        cases hbm : (up.matchFetch (pyStr m)).body with
        | error e => simp only [hbm] at hok; simp at hok
        | ok md =>
            simp only [hbm] at hok ⊢
            cases hx : RiotApi.extract_player_stats md target with
            | none =>
                simp only [hx] at hok ⊢
                rcases List.mem_cons.mp hmem with rfl | hmem'
                · rw [hbm] at hb
                  injection hb with hb
                  subst hb
                  simp
                · simp only [List.append_assoc, List.cons_append, List.nil_append,
                    List.mem_cons]
                  exact Or.inr (Or.inr (ih ps mid mj hok hmem' hst hb))
            | some player_stats =>
                simp only [hx] at hok ⊢
                cases hmk : RiotApi.mkEntry m
                    ("users/" ++ pid ++ "/matches/" ++ pyStr m ++ ".json") player_stats with
                | error e => simp only [hmk] at hok; simp at hok
                | ok entry =>
                    simp only [hmk] at hok ⊢
                    cases hnext : (RiotApi.processLoop up pid target rest).2 with
                    | error e => rw [hnext] at hok; simp [Except.map] at hok
                    | ok ps' =>
                        rcases List.mem_cons.mp hmem with rfl | hmem'
                        · rw [hbm] at hb
                          injection hb with hb
                          subst hb
                          simp
                        · simp only [List.append_assoc, List.cons_append, List.nil_append,
                            List.mem_cons]
                          exact Or.inr (Or.inr (ih ps' mid mj hnext hmem' hst hb))

theorem processLoop_count (up : RiotApi.RiotUpstream) (pid : String) (target : JVal) :
    ∀ (mids : List JVal) (ps : List JVal),
      (RiotApi.processLoop up pid target mids).2 = .ok ps →
      ps.length = mids.countP (fun mid =>
        ((up.matchFetch (pyStr mid)).status == 200)
        && (match (up.matchFetch (pyStr mid)).body with
            | .ok mj => (RiotApi.extract_player_stats mj target).isSome
            | .error _ => false)) := by
  intro mids
  induction mids with
  | nil =>
      intro ps h
      simp only [RiotApi.processLoop, Except.ok.injEq] at h
      subst h
      rfl
  | cons m rest ih =>
      intro ps h
      simp only [RiotApi.processLoop] at h
      rw [List.countP_cons]
      by_cases hstm : (up.matchFetch (pyStr m)).status ≠ 200
      · rw [if_pos hstm] at h
        have hb0 : ((up.matchFetch (pyStr m)).status == 200) = false := by
          simp [hstm]
        simp [hb0, ih ps h]
      · have hst : (up.matchFetch (pyStr m)).status = 200 := not_not.mp hstm
        rw [if_neg hstm] at h
        cases hbm : (up.matchFetch (pyStr m)).body with
        | error e => simp only [hbm] at h; simp at h
        | ok md =>
            simp only [hbm] at h
            cases hx : RiotApi.extract_player_stats md target with
            | none =>
                simp only [hx] at h
                simp [hbm, hx, ih ps h]
            | some player_stats =>
                simp only [hx] at h
                cases hmk : RiotApi.mkEntry m
                    ("users/" ++ pid ++ "/matches/" ++ pyStr m ++ ".json") player_stats with
                | error e => simp only [hmk] at h; simp at h
                | ok entry =>
                    simp only [hmk] at h
                    cases hnext : (RiotApi.processLoop up pid target rest).2 with
                    | error e => rw [hnext] at h; simp [Except.map] at h
                    | ok ps' =>
                        rw [hnext] at h
                        simp only [Except.map, Except.ok.injEq] at h
                        subst h
                        simp [hst, hbm, hx, ih ps' hnext]

/-- C10: in the ingestion handler's per-match loop, every match whose
full-record fetch returns 200 has its raw record persisted at
`users/<pid>/matches/<matchId>.json` regardless of the extraction outcome
(in particular when the queried player is absent), while the summary list
and `matchesProcessed` count only the matches where extraction found the
player. -/
theorem c10_raw_persisted_extraction_counted :
    (∀ (up : RiotApi.RiotUpstream) (pid : String) (target : JVal) (mids ps : List JVal)
       (mid mj : JVal),
      (RiotApi.processLoop up pid target mids).2 = .ok ps →
      mid ∈ mids →
      (up.matchFetch (pyStr mid)).status = 200 →
      (up.matchFetch (pyStr mid)).body = .ok mj →
      Effect.put ("users/" ++ pid ++ "/matches/" ++ pyStr mid ++ ".json") (.json mj)
        ∈ (RiotApi.processLoop up pid target mids).1)
    ∧ (∀ (up : RiotApi.RiotUpstream) (pid : String) (target : JVal) (mids ps : List JVal),
      (RiotApi.processLoop up pid target mids).2 = .ok ps →
      ps.length = mids.countP (fun mid =>
        ((up.matchFetch (pyStr mid)).status == 200)
        && (match (up.matchFetch (pyStr mid)).body with
            | .ok mj => (RiotApi.extract_player_stats mj target).isSome
            | .error _ => false)))
    ∧ (∀ (ev : EventBody) (up : RiotApi.RiotUpstream) (now : String),
      ((RiotApi.lambda_handler ev up now).2).statusCode = 200 →
      ∃ ps : List JVal,
        jfield ((RiotApi.lambda_handler ev up now).2).body "matchesProcessed"
          = some (.num (ps.length : ℚ))
        ∧ jfield ((RiotApi.lambda_handler ev up now).2).body "matches" = some (.arr ps)
        ∧ ∃ target mids, (RiotApi.processLoop up (RiotApi.resolvedPid up) target mids).2
            = .ok ps) := by
  refine ⟨processLoop_writes_raw, processLoop_count, ?_⟩
  intro ev up now h200
  cases h : (RiotApi.riotInner ev up now).2 with
  | error e =>
      rw [show (RiotApi.lambda_handler ev up now).2
          = ⟨500, .obj [("error", .str "Internal server error"), ("detail", .str e)]⟩
        from by simp [RiotApi.lambda_handler, h]] at h200
      simp at h200
  | ok resp =>
      have hh : (RiotApi.lambda_handler ev up now).2 = resp := by
        simp [RiotApi.lambda_handler, h]
      rw [hh] at h200 ⊢
      exact (riotInner_anatomy ev up now).2 resp h h200

theorem findParticipantE_none (target : JVal) :
    ∀ (l : List JVal), (∀ p ∈ l, ∃ v, getE p "puuid" = .ok v ∧ v ≠ target) →
      findParticipantE l target = .ok none := by
  intro l
  induction l with
  | nil => intro _; rfl
  | cons p rest ih =>
      intro h
      obtain ⟨v, hv, hne⟩ := h p (List.mem_cons_self p rest)
      simp only [findParticipantE, hv]
      rw [if_neg hne]
      exact ih fun q hq => h q (List.mem_cons_of_mem p hq)

theorem collectLoop_skip (puuid : String) (key : String) (mj : JVal)
    (hskip : ProcessMatches.extractStats mj puuid = .ok none) :
    ∀ (l1 l2 : List (String × Content)),
      (ProcessMatches.collectLoop puuid (l1 ++ (key, .json mj) :: l2)).2
        = (ProcessMatches.collectLoop puuid (l1 ++ l2)).2 := by
  intro l1
  induction l1 with
  | nil =>
      intro l2
      simp only [List.nil_append, ProcessMatches.collectLoop]
      by_cases he : pyEndsWith key ".json" = false
      · rw [if_pos he]
      · rw [if_neg he]
        simp only [ProcessMatches.jloadsContent, hskip]
  | cons kv rest ih =>
      intro l2
      obtain ⟨k2, c2⟩ := kv
      simp only [List.cons_append, ProcessMatches.collectLoop]
      by_cases he : pyEndsWith k2 ".json" = false
      · rw [if_pos he, if_pos he]
        exact ih l2
      · rw [if_neg he, if_neg he]
        cases hj : ProcessMatches.jloadsContent c2 with
        | error e => simp [hj]
        | ok mjx =>
            simp only [hj]
            cases hx : ProcessMatches.extractStats mjx puuid with
            | error e => simp [hx]
            | ok o =>
                cases o with
                | none =>
                    simp only [hx]
                    exact ih l2
                | some stats =>
                    simp only [hx]
                    exact congrArg _ (ih l2)

/-- C3: a raw match record whose participants all carry a `puuid` different
from the queried stable id makes both extractors return "no data" rather
than an error, and the aggregation loop skips such a match silently: it
contributes no row and does not fail the batch. -/
theorem c3_absent_player_skipped_silently :
    (∀ (match_json info parts : JVal) (partsList : List JVal) (puuid : String),
      getE match_json "info" = .ok info →
      getE info "participants" = .ok parts →
      toIterE parts = .ok partsList →
      (∀ p ∈ partsList, ∃ v, getE p "puuid" = .ok v ∧ v ≠ .str puuid) →
      RiotApi.extractPlayerStatsE match_json (.str puuid) = .ok none
      ∧ RiotApi.extract_player_stats match_json (.str puuid) = none
      ∧ ProcessMatches.extractStats match_json puuid = .ok none)
    ∧ (∀ (puuid key : String) (mj : JVal) (l1 l2 : List (String × Content)),
      ProcessMatches.extractStats mj puuid = .ok none →
      (ProcessMatches.collectLoop puuid (l1 ++ (key, .json mj) :: l2)).2
        = (ProcessMatches.collectLoop puuid (l1 ++ l2)).2) := by
  constructor
  · intro match_json info parts partsList puuid h1 h2 h3 habs
    have hfind : findParticipantE partsList (.str puuid) = .ok none :=
      findParticipantE_none (.str puuid) partsList habs
    have he : RiotApi.extractPlayerStatsE match_json (.str puuid) = .ok none := by
      simp [RiotApi.extractPlayerStatsE, Bind.bind, Except.bind, Pure.pure, Except.pure,
        h1, h2, h3, hfind]
    refine ⟨he, ?_, ?_⟩
    · simp [RiotApi.extract_player_stats, he]
    · simp [ProcessMatches.extractStats, Bind.bind, Except.bind, Pure.pure, Except.pure,
        h1, h2, h3, hfind]
  · intro puuid key mj l1 l2 hskip
    exact collectLoop_skip puuid key mj hskip l1 l2

/-- A raw match record that does not contain the sample player `p1`. -/
def absentMatch : JVal := .obj [("metadata", .obj [("matchId", .str "M2")]),
  ("info", .obj [("participants", .arr [.obj [("puuid", .str "other")]])])]

theorem c3_absent_player_witness :
    (RiotApi.extractPlayerStatsE absentMatch (.str "p1") = .ok none
      ∧ RiotApi.extract_player_stats absentMatch (.str "p1") = none
      ∧ ProcessMatches.extractStats absentMatch "p1" = .ok none)
    ∧ (ProcessMatches.collectLoop "p1"
        ([("users/p1/matches/M1.json", .json sampleMatch)]
          ++ ("users/p1/matches/M2.json", .json absentMatch)
          :: [])).2
      = (ProcessMatches.collectLoop "p1"
          ([("users/p1/matches/M1.json", .json sampleMatch)] ++ [])).2 := by
  constructor
  · exact c3_absent_player_skipped_silently.1 absentMatch
      (.obj [("participants", .arr [.obj [("puuid", .str "other")]])])
      (.arr [.obj [("puuid", .str "other")]])
      [.obj [("puuid", .str "other")]] "p1"
      (by decide) (by decide) (by decide)
      (by
        intro p hp
        simp only [List.mem_singleton] at hp
        subst hp
        exact ⟨.str "other", by decide, by decide⟩)
  · exact c3_absent_player_skipped_silently.2 "p1" "users/p1/matches/M2.json" absentMatch
      [("users/p1/matches/M1.json", .json sampleMatch)] []
      (c3_absent_player_skipped_silently.1 absentMatch
        (.obj [("participants", .arr [.obj [("puuid", .str "other")]])])
        (.arr [.obj [("puuid", .str "other")]])
        [.obj [("puuid", .str "other")]] "p1"
        (by decide) (by decide) (by decide)
        (by
          intro p hp
          simp only [List.mem_singleton] at hp
          subst hp
          exact ⟨.str "other", by decide, by decide⟩)).2.2

/-- A stored raw match record in which `p1` appears but the participant
entry lacks the required `kills` field (a structural deviation). -/
def c4BadMatch : JVal := .obj [("metadata", .obj [("matchId", .str "A")]),
  ("info", .obj [("gameCreation", .num 1), ("gameDuration", .num 2),
    ("gameMode", .str "X"), ("queueId", .num 3),
    ("participants", .arr [.obj [("puuid", .str "p1"), ("championName", .str "Zed"),
      ("championId", .num 238)]])])]

/-- C4 counterexample: in the aggregation handler a missing required field
in ONE stored match fails the whole request with a 500 response — the
other, fully valid match in the batch is never read, no row is produced
and no aggregate is written, contradicting the claim that such a deviation
aborts only that match's extraction. -/
theorem c4_counterexample_batch_fails_whole :
    (ProcessMatches.lambda_handler (.parsed (.obj [("puuid", .str "p1")])) "bkt"
      [("users/p1/matches/A.json", .json c4BadMatch),
       ("users/p1/matches/B.json", .json sampleMatch)]).2
      = ⟨500, .obj [("error", .str "Internal server error"),
          ("detail", .str "KeyError: kills")]⟩
    ∧ (ProcessMatches.lambda_handler (.parsed (.obj [("puuid", .str "p1")])) "bkt"
      [("users/p1/matches/A.json", .json c4BadMatch),
       ("users/p1/matches/B.json", .json sampleMatch)]).1
      = [.s3List "users/p1/matches/", .s3Get "users/p1/matches/A.json"] := by
  constructor
  · decide
  · decide

/-- C4 amended: per-match containment of structural deviations holds in the
ingestion handler — `extract_player_stats` turns the exception into `None`,
the raw record is still persisted and the remaining matches are processed
unchanged — while in the aggregation handler the exception aborts the whole
request (the loop stops at the malformed match with an error). -/
theorem c4_per_match_containment_ingestion_only :
    (∀ (up : RiotApi.RiotUpstream) (pid : String) (target badId mj : JVal)
       (rest : List JVal) (e : String),
      (up.matchFetch (pyStr badId)).status = 200 →
      (up.matchFetch (pyStr badId)).body = .ok mj →
      RiotApi.extractPlayerStatsE mj target = .error e →
      RiotApi.processLoop up pid target (badId :: rest)
        = ([.httpGet ("match " ++ pyStr badId),
            .put ("users/" ++ pid ++ "/matches/" ++ pyStr badId ++ ".json") (.json mj)]
            ++ (RiotApi.processLoop up pid target rest).1,
           (RiotApi.processLoop up pid target rest).2))
    ∧ (∀ (puuid key : String) (mj : JVal) (e : String) (rest : List (String × Content)),
      pyEndsWith key ".json" = true →
      ProcessMatches.extractStats mj puuid = .error e →
      ProcessMatches.collectLoop puuid ((key, .json mj) :: rest)
        = ([.s3Get key], .error e)) := by
  constructor
  · intro up pid target badId mj rest e hst hb herr
    simp only [RiotApi.processLoop]
    rw [if_neg (by simp [hst])]
    simp only [hb]
    have hx : RiotApi.extract_player_stats mj target = none := by
      simp [RiotApi.extract_player_stats, herr]
    simp only [hx]
    simp
  · intro puuid key mj e rest hkey herr
    simp only [ProcessMatches.collectLoop]
    rw [if_neg (by simp [hkey])]
    simp only [ProcessMatches.jloadsContent, herr]

/-- The ingestion request event used by the witnesses. -/
def goodEvent : EventBody :=
  .parsed (.obj [("summonerName", .str "Foo#NA1"), ("region", .str "na1")])

/-- A fully successful upstream for the witnesses: the account resolves to
`p1`, match `M1` contains the player, match `M2` does not. -/
def goodUpstream : RiotApi.RiotUpstream :=
  { apiKey := .ok "k"
    account := ⟨200, "", .ok (.obj [("puuid", .str "p1"), ("gameName", .str "Foo"),
      ("tagLine", .str "NA1")])⟩
    summoner := ⟨200, "", .ok (.obj [("summonerLevel", .num 30)])⟩
    matchList := ⟨200, "", .ok (.arr [.str "M1", .str "M2"])⟩
    matchFetch := fun mid =>
      if mid = "M1" then ⟨200, "", .ok sampleMatch⟩
      else if mid = "A" then ⟨200, "", .ok c4BadMatch⟩
      else ⟨200, "", .ok absentMatch⟩ }

theorem c4_per_match_containment_witness :
    RiotApi.processLoop goodUpstream "p1" (.str "p1") [.str "A", .str "M2"]
      = ([.httpGet ("match " ++ pyStr (.str "A")),
          .put ("users/" ++ "p1" ++ "/matches/" ++ pyStr (.str "A") ++ ".json")
            (.json c4BadMatch)]
          ++ (RiotApi.processLoop goodUpstream "p1" (.str "p1") [.str "M2"]).1,
         (RiotApi.processLoop goodUpstream "p1" (.str "p1") [.str "M2"]).2)
    ∧ ProcessMatches.collectLoop "p1" [("users/p1/matches/A.json", .json c4BadMatch)]
      = ([.s3Get "users/p1/matches/A.json"], .error "KeyError: kills") :=
  ⟨c4_per_match_containment_ingestion_only.1 goodUpstream "p1" (.str "p1") (.str "A")
      c4BadMatch [.str "M2"] "KeyError: teamPosition"
      (by decide) (by decide) (by decide),
   c4_per_match_containment_ingestion_only.2 "p1" "users/p1/matches/A.json" c4BadMatch
      "KeyError: kills" [] (by decide) (by decide)⟩

theorem c2_aggregation_witness :
    (ProcessMatches.collectLoop "p1"
        ([("users/p1/matches/M1.json", Content.json sampleMatch)].filter fun kc =>
          pyStartsWith kc.1 ("users/" ++ "p1" ++ "/matches/"))).2 = .ok [sampleRow]
    ∧ (ProcessMatches.lambda_handler (.parsed (.obj [("puuid", .str "p1")])) "bkt"
        [("users/p1/matches/M1.json", .json sampleMatch)]).2.statusCode = 200
    ∧ Effect.put ("users/" ++ "p1" ++ "/processed/match_stats.csv")
        (.csv (sampleRow.map Prod.fst) [sampleRow])
        ∈ (ProcessMatches.lambda_handler (.parsed (.obj [("puuid", .str "p1")])) "bkt"
            [("users/p1/matches/M1.json", .json sampleMatch)]).1 := by
  have h := c2_aggregation_rows_and_header (.obj [("puuid", .str "p1")]) "bkt"
    [("users/p1/matches/M1.json", .json sampleMatch)] "p1" [sampleRow]
    (by decide) (by decide) (by decide)
  have h2 := h.2 sampleRow [] rfl
  exact ⟨by decide, h2.1, h2.2.2.2.1⟩

theorem c9_storage_key_layout_witness :
    (Effect.put "users/p1/profile.json"
        (.json (.obj [("puuid", .str "p1"), ("gameName", .str "Foo"),
          ("tagLine", .str "NA1"), ("summonerLevel", .num 30), ("region", .str "na1"),
          ("lastUpdated", .str "T")]))
        ∈ (RiotApi.lambda_handler goodEvent goodUpstream "T").1
      ∧ ("users/p1/profile.json"
          = "users/" ++ RiotApi.resolvedPid goodUpstream ++ "/profile.json"
        ∨ ∃ mid, "users/p1/profile.json"
          = "users/" ++ RiotApi.resolvedPid goodUpstream ++ "/matches/" ++ mid ++ ".json"))
    ∧ (getStrField (.obj [("puuid", .str "p1")]) "puuid" "" = .ok "p1"
      ∧ "users/p1/processed/match_stats.csv" = "users/" ++ "p1" ++ "/processed/match_stats.csv")
    ∧ Effect.put "users/p1/x" (.json .null)
        ∉ (QueryRag.lambda_handler (.parsed (.obj [("puuid", .str "p1"),
            ("question", .str "Q?")])) [] .null).1 := by
  refine ⟨⟨by decide, ?_⟩, ⟨by decide, ?_⟩, ?_⟩
  · exact c9_storage_key_layout.1 goodEvent goodUpstream "T" "users/p1/profile.json"
      (.json (.obj [("puuid", .str "p1"), ("gameName", .str "Foo"),
        ("tagLine", .str "NA1"), ("summonerLevel", .num 30), ("region", .str "na1"),
        ("lastUpdated", .str "T")])) (by decide)
  · exact c9_storage_key_layout.2.1 (.obj [("puuid", .str "p1")]) "bkt"
      [("users/p1/matches/M1.json", .json sampleMatch)] "p1"
      "users/p1/processed/match_stats.csv"
      (.csv (sampleRow.map Prod.fst) [sampleRow]) (by decide) (by decide)
  · exact c9_storage_key_layout.2.2 (.parsed (.obj [("puuid", .str "p1"),
      ("question", .str "Q?")])) [] .null "users/p1/x" (.json .null)

/-- The summary entry the ingestion loop produces from `sampleMatch`. -/
def sampleEntry : JVal := .obj [("matchId", .str "M1"), ("champion", .str "Ahri"),
  ("championId", .num 103), ("role", .str "MIDDLE"), ("kills", .num 3),
  ("deaths", .num 2), ("assists", .num 4), ("kda", .str "3/2/4"), ("win", .bool true),
  ("gameMode", .str "CLASSIC"), ("gameDuration", .num 1800), ("cs", .num 120),
  ("s3Key", .str "users/p1/matches/M1.json")]

theorem c10_raw_persisted_witness :
    ((RiotApi.processLoop goodUpstream "p1" (.str "p1") [.str "M1", .str "M2"]).2
      = .ok [sampleEntry])
    ∧ Effect.put ("users/" ++ "p1" ++ "/matches/" ++ pyStr (.str "M2") ++ ".json")
        (.json absentMatch)
        ∈ (RiotApi.processLoop goodUpstream "p1" (.str "p1") [.str "M1", .str "M2"]).1
    ∧ ([sampleEntry] : List JVal).length
      = ([.str "M1", .str "M2"] : List JVal).countP (fun mid =>
          ((goodUpstream.matchFetch (pyStr mid)).status == 200)
          && (match (goodUpstream.matchFetch (pyStr mid)).body with
              | .ok mj => (RiotApi.extract_player_stats mj (.str "p1")).isSome
              | .error _ => false))
    ∧ ((RiotApi.lambda_handler goodEvent goodUpstream "T").2).statusCode = 200
    ∧ ∃ ps : List JVal,
        jfield ((RiotApi.lambda_handler goodEvent goodUpstream "T").2).body
          "matchesProcessed" = some (.num (ps.length : ℚ))
        ∧ jfield ((RiotApi.lambda_handler goodEvent goodUpstream "T").2).body "matches"
          = some (.arr ps)
        ∧ ∃ target mids,
            (RiotApi.processLoop goodUpstream (RiotApi.resolvedPid goodUpstream)
              target mids).2 = .ok ps := by
  refine ⟨by decide, ?_, ?_, by decide, ?_⟩
  · exact c10_raw_persisted_extraction_counted.1 goodUpstream "p1" (.str "p1")
      [.str "M1", .str "M2"] [sampleEntry] (.str "M2") absentMatch
      (by decide) (by decide) (by decide) (by decide)
  · exact c10_raw_persisted_extraction_counted.2.1 goodUpstream "p1" (.str "p1")
      [.str "M1", .str "M2"] [sampleEntry] (by decide)
  · exact c10_raw_persisted_extraction_counted.2.2 goodEvent goodUpstream "T" (by decide)
